import Mathlib

/-!
# go-backend-tmpl: OAuth2 login, identity reconciliation and token issuance

A shallow embedding of the authentication core of `hcd233/go-backend-tmpl`
(`internal/domain/auth`, `internal/domain/user`, `internal/application/auth`,
and from the adapters around it the GitHub provider, the refresh-token handler
and the user repository) and theorems about it.

Conventions of the embedding.

* Go strings are Lean strings; `len` is the UTF-8 byte length.
* `uint` user identifiers are natural numbers (no arithmetic is done on them).
* A Go `error` result is `Option GoError`; `none` is `nil`.
* The collaborators behind interfaces (OAuth2 providers, token signers, the
  user repository, the post-creation hook) and the wall clock are arbitrary
  functions over an abstract world state `W`: each call may read and change
  the world, so every behaviour of a collaborator is covered.
* Every call to a collaborator appends one `Event` to the trace of the run, in
  call order, so that "is never invoked" is a statement about the trace.
* A method call through a nil pointer is the outcome `panic`.
* Logging does not influence control flow and is left out.
-/

set_option autoImplicit false

namespace GoTmpl

/-! ## Go runtime values -/

/-- Go error values.  Package-level `var Err... = errors.New(..)` sentinels
are identified by package and variable name (Go compares them by pointer),
errors built in place with `errors.New` by their message, and
`fmt.Errorf("%w: ..", inner)` is `wrap`. -/
inductive GoError where
  | sentinel (pkg : String) (name : String)
  | errorsNew (msg : String)
  | wrap (inner : GoError) (msg : String)
  deriving DecidableEq, Repr

/-- The standard library function `errors.Is`: does the unwrap chain of `err`
contain `target`. -/
def errorsIs : GoError → GoError → Bool
  | GoError.wrap inner msg, target =>
      decide (GoError.wrap inner msg = target) || errorsIs inner target
  | GoError.sentinel pkg name, target => decide (GoError.sentinel pkg name = target)
  | GoError.errorsNew msg, target => decide (GoError.errorsNew msg = target)

/-- The sentinel `gorm.ErrRecordNotFound` of the ORM library. -/
def gormErrRecordNotFound : GoError := GoError.sentinel "gorm" "ErrRecordNotFound"

/-- An instant of `time.Time`: Unix seconds and the nanosecond within it. -/
structure Time where
  unix : Int
  nsec : Nat
  deriving DecidableEq, Repr

/-- The method `Time.Add` for a duration given in whole seconds. -/
def Time.AddSeconds (t : Time) (d : Int) : Time := { t with unix := t.unix + d }

/-- The wall clock `time.Now()`, read from the world. -/
abbrev Clock (W : Type) := W → Time × W

/-- What a call to a collaborator returns: its value, its Go `error` and the
world it leaves behind. -/
structure Ret (W : Type) (α : Type) where
  val : α
  err : Option GoError
  world : W

/-- How a Go function of the core ends. -/
inductive Outcome (α : Type) where
  | ok (v : α)
  | error (e : GoError)
  | panic
  deriving DecidableEq, Repr

/-! ## internal/domain/user -/

namespace user

/-- The type `Permission` (a Go string type). -/
abbrev Permission := String

def PermissionReader : Permission := "reader"
def PermissionCreator : Permission := "creator"
def PermissionAdmin : Permission := "admin"

/-- The map `PermissionLevelMapping`. -/
def PermissionLevelMapping (p : Permission) : Option Int :=
  if p = PermissionReader then some 1
  else if p = PermissionCreator then some 2
  else if p = PermissionAdmin then some 3
  else none

/-- The method `Permission.IsValid`. -/
def Permission.IsValid (p : Permission) : Bool := (PermissionLevelMapping p).isSome

/-- The method `Permission.Level`: a missing key reads as the zero value. -/
def Permission.Level (p : Permission) : Int := (PermissionLevelMapping p).getD 0

/-- The method `Permission.HasPermission`. -/
def Permission.HasPermission (p required : Permission) : Bool :=
  decide (Permission.Level p ≥ Permission.Level required)

/-- The value object `Email`. -/
structure Email where
  value : String
  deriving DecidableEq, Repr

/-- The constructor `NewEmail`: only the empty string is rejected. -/
def NewEmail (email : String) : Except GoError Email :=
  if email = "" then Except.error (GoError.errorsNew "email cannot be empty")
  else Except.ok { value := email }

/-- The aggregate root `User`. -/
structure User where
  id : Nat
  name : String
  email : Email
  avatar : String
  permission : Permission
  lastLogin : Time
  createdAt : Time
  updatedAt : Time
  githubBindID : String
  qqBindID : String
  googleBindID : String
  deriving DecidableEq, Repr

def ErrUserNotFound : GoError := GoError.sentinel "domain/user" "ErrUserNotFound"
def ErrUserAlreadyExists : GoError := GoError.sentinel "domain/user" "ErrUserAlreadyExists"
def ErrInvalidUserName : GoError := GoError.sentinel "domain/user" "ErrInvalidUserName"

/-- The constructor `NewUser`; on success it reads the clock once. Fields it
does not set hold their zero value. -/
def NewUser {W : Type} (now : Clock W) (name : String) (email : Email) (avatar : String)
    (permission : Permission) (w : W) : Except GoError User × W :=
  if name = "" then
    (Except.error (GoError.errorsNew "user name cannot be empty"), w)
  else if !Permission.IsValid permission then
    (Except.error (GoError.errorsNew "invalid permission"), w)
  else
    let t := now w
    (Except.ok
      { id := 0, name := name, email := email, avatar := avatar, permission := permission,
        lastLogin := t.1, createdAt := t.1, updatedAt := t.1,
        githubBindID := "", qqBindID := "", googleBindID := "" }, t.2)

/-- The method `User.RecordLogin`; it reads the clock twice. -/
def User.RecordLogin {W : Type} (now : Clock W) (u : User) (w : W) : User × W :=
  let t1 := now w
  let t2 := now t1.2
  ({ u with lastLogin := t1.1, updatedAt := t2.1 }, t2.2)

/-- The method `User.BindGithub`; `val` is the user as the call leaves it. -/
def User.BindGithub {W : Type} (now : Clock W) (u : User) (githubID : String) (w : W) :
    Ret W User :=
  if githubID = "" then
    { val := u, err := some (GoError.errorsNew "github ID cannot be empty"), world := w }
  else
    let t := now w
    { val := { u with githubBindID := githubID, updatedAt := t.1 }, err := none, world := t.2 }

/-- The method `User.BindQQ`. -/
def User.BindQQ {W : Type} (now : Clock W) (u : User) (qqID : String) (w : W) : Ret W User :=
  if qqID = "" then
    { val := u, err := some (GoError.errorsNew "QQ ID cannot be empty"), world := w }
  else
    let t := now w
    { val := { u with qqBindID := qqID, updatedAt := t.1 }, err := none, world := t.2 }

/-- The method `User.BindGoogle`. -/
def User.BindGoogle {W : Type} (now : Clock W) (u : User) (googleID : String) (w : W) :
    Ret W User :=
  if googleID = "" then
    { val := u, err := some (GoError.errorsNew "google ID cannot be empty"), world := w }
  else
    let t := now w
    { val := { u with googleBindID := googleID, updatedAt := t.1 }, err := none, world := t.2 }

/-- The method `User.SetID`. -/
def User.SetID (u : User) (id : Nat) : User := { u with id := id }

/-- The method `User.UpdateName`; only the empty name is rejected. -/
def User.UpdateName {W : Type} (now : Clock W) (u : User) (name : String) (w : W) :
    Ret W User :=
  if name = "" then
    { val := u, err := some (GoError.errorsNew "user name cannot be empty"), world := w }
  else
    let t := now w
    { val := { u with name := name, updatedAt := t.1 }, err := none, world := t.2 }

/-- The method `User.UpdateAvatar`. -/
def User.UpdateAvatar {W : Type} (now : Clock W) (u : User) (avatar : String) (w : W) :
    User × W :=
  let t := now w
  ({ u with avatar := avatar, updatedAt := t.1 }, t.2)

/-- The method `User.UpdatePermission`. -/
def User.UpdatePermission {W : Type} (now : Clock W) (u : User) (permission : Permission)
    (w : W) : Ret W User :=
  if !Permission.IsValid permission then
    { val := u, err := some (GoError.errorsNew "invalid permission"), world := w }
  else
    let t := now w
    { val := { u with permission := permission, updatedAt := t.1 }, err := none, world := t.2 }

/-- The method `User.HasPermission`. -/
def User.HasPermission (u : User) (required : Permission) : Bool :=
  Permission.HasPermission u.permission required

/-- One call of a mutating method of the aggregate, with its argument. -/
inductive Mutation where
  | UpdateName (name : String)
  | UpdateAvatar (avatar : String)
  | UpdatePermission (permission : Permission)
  | RecordLogin
  | BindGithub (githubID : String)
  | BindQQ (qqID : String)
  | BindGoogle (googleID : String)
  deriving DecidableEq, Repr

/-- Run one mutating call: `val` is the user as the call leaves it, `err` the
error it returns (nil for the methods without a result). -/
def Mutation.apply {W : Type} (now : Clock W) (m : Mutation) (u : User) (w : W) : Ret W User :=
  match m with
  | Mutation.UpdateName name => User.UpdateName now u name w
  | Mutation.UpdateAvatar avatar =>
      let r := User.UpdateAvatar now u avatar w
      { val := r.1, err := none, world := r.2 }
  | Mutation.UpdatePermission permission => User.UpdatePermission now u permission w
  | Mutation.RecordLogin =>
      let r := User.RecordLogin now u w
      { val := r.1, err := none, world := r.2 }
  | Mutation.BindGithub githubID => User.BindGithub now u githubID w
  | Mutation.BindQQ qqID => User.BindQQ now u qqID w
  | Mutation.BindGoogle googleID => User.BindGoogle now u googleID w

/-- Run a sequence of mutating calls in order, going on after a call that
returns an error. -/
def Mutation.applyAll {W : Type} (now : Clock W) : List Mutation → User → W → User × W
  | [], u, w => (u, w)
  | m :: rest, u, w =>
      Mutation.applyAll now rest (Mutation.apply now m u w).val (Mutation.apply now m u w).world

/-- The identity fields of `v` are those of `u`. -/
def SameIdentity (u v : User) : Prop :=
  v.id = u.id ∧ v.name = u.name ∧ v.email = u.email ∧ v.avatar = u.avatar ∧
  v.permission = u.permission

/-- The user after two calls of the same bind method in a row, first with the
identifier `a`, then with `b`. -/
def bindTwice {W : Type} (bind : User → String → W → Ret W User) (u : User) (a b : String)
    (w : W) : User :=
  (bind (bind u a w).val b (bind u a w).world).val

/-- The interface `Repository`, with the two methods the login flow calls.
`Save` receives a pointer, so it returns the user as it leaves it (the
persistence layer back-fills the identifier of a new row). `FindByEmail`
returns a pointer and an error, each of which may be nil. -/
structure Repository (W : Type) where
  Save : User → W → Ret W User
  FindByEmail : Email → W → Ret W (Option User)

end user

/-! ## Calls to collaborators -/

/-- The receiver through which a repository is reached: the application
service field `userRepo`, or the field `repo` of the user domain service. -/
inductive Via where
  | appService
  | userService
  deriving DecidableEq, Repr

/-- The two token signers of the auth domain service. -/
inductive Signer where
  | access
  | refresh
  deriving DecidableEq, Repr

/-- The type `Provider` (a Go string type). -/
abbrev Provider := String

/-- A `*oauth2.Token` as handed from `ExchangeToken` to `GetUserInfo`: nil, or a
token identified by its access-token string. -/
abbrev OAuth2Token := Option String

/-- One call to a collaborator, with the arguments it was given. -/
inductive Event where
  | GetAuthURL (provider : Provider)
  | ExchangeToken (provider : Provider) (code : String)
  | GetUserInfo (provider : Provider) (token : OAuth2Token)
  | FindByEmail (via : Via) (email : user.Email)
  | Save (via : Via) (u : user.User)
  | OnUserCreated (userID : Nat)
  | EncodeToken (signer : Signer) (userID : Nat)
  | DecodeToken (signer : Signer) (token : String)
  deriving DecidableEq, Repr

/-- A run of a function of the core: how it ends, the calls it made to
collaborators in order, and the world it leaves. -/
structure Run (W : Type) (α : Type) where
  out : Outcome α
  trace : List Event
  world : W

/-- The standard library function `strconv.FormatInt(i, 10)`. -/
def FormatInt (i : Int) : String :=
  match i with
  | Int.ofNat n => Nat.repr n
  | Int.negSucc n => "-" ++ Nat.repr (n + 1)

namespace user

/-- One character of the class `[a-zA-Z0-9_-]`. -/
def userNameChar (c : Char) : Bool :=
  (decide ('a' ≤ c) && decide (c ≤ 'z')) || (decide ('A' ≤ c) && decide (c ≤ 'Z')) ||
  (decide ('0' ≤ c) && decide (c ≤ '9')) || c == '_' || c == '-'

/-- The call `regexp.MatchString` with the pattern `^[a-zA-Z0-9_-]+$`: the whole
text is one or more characters of the class. -/
def matchUserNamePattern (name : String) : Bool :=
  !name.data.isEmpty && name.data.all userNameChar

/-- The function `ValidateUserName`; `none` is the nil error. -/
def ValidateUserName (name : String) : Option GoError :=
  if name.utf8ByteSize < 3 ∨ name.utf8ByteSize > 20 then
    some (GoError.wrap ErrInvalidUserName "length must be between 3 and 20")
  else if !matchUserNamePattern name then
    some (GoError.wrap ErrInvalidUserName
      "can only contain letters, numbers, underscores and hyphens")
  else none

/-- The user domain service. -/
structure Service (W : Type) where
  repo : Repository W

/-- The method `Service.CreateUser` of the user domain service. The error of
its `FindByEmail` call is discarded, as in the source. -/
def Service.CreateUser {W : Type} (now : Clock W) (s : Service W) (name : String)
    (emailStr : String) (avatar : String) (permission : Permission) (w : W) : Run W User :=
  match ValidateUserName name with
  | some err => { out := Outcome.error err, trace := [], world := w }
  | none =>
  match NewEmail emailStr with
  | Except.error err => { out := Outcome.error err, trace := [], world := w }
  | Except.ok email =>
  let found := s.repo.FindByEmail email w
  let tr1 := [Event.FindByEmail Via.userService email]
  match found.val with
  | some _ => { out := Outcome.error ErrUserAlreadyExists, trace := tr1, world := found.world }
  | none =>
  let made := NewUser now name email avatar permission found.world
  match made.1 with
  | Except.error err => { out := Outcome.error err, trace := tr1, world := made.2 }
  | Except.ok u =>
  let saved := s.repo.Save u made.2
  let tr2 := tr1 ++ [Event.Save Via.userService u]
  match saved.err with
  | some err => { out := Outcome.error err, trace := tr2, world := saved.world }
  | none => { out := Outcome.ok saved.val, trace := tr2, world := saved.world }

end user

/-! ## internal/domain/auth -/

namespace domainauth

def ProviderGithub : Provider := "github"
def ProviderQQ : Provider := "qq"
def ProviderGoogle : Provider := "google"

/-- The method `Provider.IsValid`. -/
def Provider.IsValid (p : Provider) : Bool :=
  decide (p = ProviderGithub) || decide (p = ProviderQQ) || decide (p = ProviderGoogle)

def ErrInvalidAuthCode : GoError := GoError.sentinel "domain/auth" "ErrInvalidAuthCode"
def ErrInvalidState : GoError := GoError.sentinel "domain/auth" "ErrInvalidState"
def ErrFailedToGetUserInfo : GoError := GoError.sentinel "domain/auth" "ErrFailedToGetUserInfo"

/-- The value object `OAuth2UserInfo`. Its fields are unexported: outside the
package a value is the result of `NewOAuth2UserInfo` (non-empty identifier,
valid provider) or the zero value (every field empty). -/
structure OAuth2UserInfo where
  id : String
  name : String
  email : String
  avatar : String
  provider : Provider
  deriving DecidableEq, Repr

/-- The constructor `NewOAuth2UserInfo`. -/
def NewOAuth2UserInfo (id name email avatar : String) (provider : Provider) :
    Except GoError OAuth2UserInfo :=
  if id = "" then Except.error (GoError.errorsNew "OAuth2 user ID cannot be empty")
  else if !Provider.IsValid provider then
    Except.error (GoError.errorsNew "invalid OAuth2 provider")
  else Except.ok { id := id, name := name, email := email, avatar := avatar,
                   provider := provider }

/-- The accessor `OAuth2UserInfo.ID`. -/
def OAuth2UserInfo.ID (o : OAuth2UserInfo) : String := o.id

/-- The accessor `OAuth2UserInfo.Name`. -/
def OAuth2UserInfo.Name (o : OAuth2UserInfo) : String := o.name

/-- The accessor `OAuth2UserInfo.Email`. -/
def OAuth2UserInfo.Email (o : OAuth2UserInfo) : String := o.email

/-- The accessor `OAuth2UserInfo.Avatar`. -/
def OAuth2UserInfo.Avatar (o : OAuth2UserInfo) : String := o.avatar

/-- The accessor `OAuth2UserInfo.Provider`. -/
def OAuth2UserInfo.Provider (o : OAuth2UserInfo) : Provider := o.provider

/-- The value object `Token`. -/
structure Token where
  accessToken : String
  refreshToken : String
  expiresAt : Time
  deriving DecidableEq, Repr

/-- The constructor `NewToken`. -/
def NewToken (accessToken refreshToken : String) (expiresAt : Time) : Token :=
  { accessToken := accessToken, refreshToken := refreshToken, expiresAt := expiresAt }

/-- The interface `OAuth2Provider`. `GetUserInfo` returns a pointer and an
error, each of which may be nil. -/
structure OAuth2Provider (W : Type) where
  GetAuthURL : W → String × W
  ExchangeToken : String → W → Ret W OAuth2Token
  GetUserInfo : OAuth2Token → W → Ret W (Option OAuth2UserInfo)
  GetProvider : Provider

/-- The interface `TokenSigner`. -/
structure TokenSigner (W : Type) where
  EncodeToken : Nat → W → Ret W String
  DecodeToken : String → W → Ret W Nat

/-- The auth domain service. -/
structure Service (W : Type) where
  accessTokenSigner : TokenSigner W
  refreshTokenSigner : TokenSigner W
  stateString : String

/-- The method `Service.ValidateState`; `none` is the nil error. -/
def Service.ValidateState {W : Type} (s : Service W) (state : String) : Option GoError :=
  if state ≠ s.stateString then some ErrInvalidState else none

/-- The method `Service.GenerateTokens`. -/
def Service.GenerateTokens {W : Type} (now : Clock W) (s : Service W) (userID : Nat) (w : W) :
    Run W Token :=
  let a := s.accessTokenSigner.EncodeToken userID w
  let tr1 := [Event.EncodeToken Signer.access userID]
  match a.err with
  | some err => { out := Outcome.error err, trace := tr1, world := a.world }
  | none =>
  let r := s.refreshTokenSigner.EncodeToken userID a.world
  let tr2 := tr1 ++ [Event.EncodeToken Signer.refresh userID]
  match r.err with
  | some err => { out := Outcome.error err, trace := tr2, world := r.world }
  | none =>
  let t := now r.world
  { out := Outcome.ok (NewToken a.val r.val (t.1.AddSeconds 3600)), trace := tr2,
    world := t.2 }

end domainauth

/-! ## internal/application/auth -/

namespace appauth

def ErrUnauthorized : GoError := GoError.sentinel "application/auth" "ErrUnauthorized"
def ErrInternalError : GoError := GoError.sentinel "application/auth" "ErrInternalError"
def ErrInvalidProvider : GoError := GoError.sentinel "application/auth" "ErrInvalidProvider"

/-- The command `LoginCommand`. -/
structure LoginCommand where
  Provider : String
  deriving DecidableEq, Repr

/-- The command `CallbackCommand`. -/
structure CallbackCommand where
  Code : String
  State : String
  Provider : String
  deriving DecidableEq, Repr

/-- The response `LoginResponse`. -/
structure LoginResponse where
  RedirectURL : String
  deriving DecidableEq, Repr

/-- The response `CallbackResponse`. -/
structure CallbackResponse where
  AccessToken : String
  RefreshToken : String
  deriving DecidableEq, Repr

/-- The auth application service. The map `oauth2Providers` is a partial
function on provider strings whose entries are implementations (no nil
interface values); `onUserCreated` may be nil. -/
structure Service (W : Type) where
  authService : domainauth.Service W
  userRepo : user.Repository W
  userService : user.Service W
  oauth2Providers : Provider → Option (domainauth.OAuth2Provider W)
  onUserCreated : Option (Nat → W → Ret W Unit)

/-- The method `Service.Login`. -/
def Service.Login {W : Type} (s : Service W) (cmd : LoginCommand) (w : W) :
    Run W LoginResponse :=
  let provider : Provider := cmd.Provider
  if !domainauth.Provider.IsValid provider then
    { out := Outcome.error ErrInvalidProvider, trace := [], world := w }
  else
  match s.oauth2Providers provider with
  | none => { out := Outcome.error ErrInvalidProvider, trace := [], world := w }
  | some oauth2Provider =>
  let url := oauth2Provider.GetAuthURL w
  { out := Outcome.ok { RedirectURL := url.1 }, trace := [Event.GetAuthURL provider],
    world := url.2 }

/-- The statement `switch provider` of `Callback` that binds the external
identifier; the error of the bind is discarded and there is no case for QQ. -/
def bindThirdParty {W : Type} (now : Clock W) (provider : Provider) (u : user.User)
    (externalID : String) (w : W) : user.User × W :=
  if provider = domainauth.ProviderGithub then
    let r := user.User.BindGithub now u externalID w
    (r.val, r.world)
  else if provider = domainauth.ProviderGoogle then
    let r := user.User.BindGoogle now u externalID w
    (r.val, r.world)
  else (u, w)

/-- Lines 184 to 197 of `Callback`: generate the token pair for the user and
build the response. `tr` is the trace so far. -/
def issueTokens {W : Type} (now : Clock W) (s : Service W) (u : user.User) (tr : List Event)
    (w : W) : Run W CallbackResponse :=
  let g := domainauth.Service.GenerateTokens now s.authService u.id w
  match g.out with
  | Outcome.ok tokens =>
      { out := Outcome.ok { AccessToken := tokens.accessToken,
                            RefreshToken := tokens.refreshToken },
        trace := tr ++ g.trace, world := g.world }
  | Outcome.error _ =>
      { out := Outcome.error ErrInternalError, trace := tr ++ g.trace, world := g.world }
  | Outcome.panic => { out := Outcome.panic, trace := tr ++ g.trace, world := g.world }

/-- Lines 131 to 145 of `Callback`: the user exists. -/
def loginExisting {W : Type} (now : Clock W) (s : Service W) (provider : Provider)
    (info : domainauth.OAuth2UserInfo) (u : user.User) (tr : List Event) (w : W) :
    Run W CallbackResponse :=
  let logged := user.User.RecordLogin now u w
  let bound := bindThirdParty now provider logged.1 info.id logged.2
  let saved := s.userRepo.Save bound.1 bound.2
  let tr1 := tr ++ [Event.Save Via.appService bound.1]
  match saved.err with
  | some _ => { out := Outcome.error ErrInternalError, trace := tr1, world := saved.world }
  | none => issueTokens now s saved.val tr1 saved.world

/-- Lines 148 to 152 of `Callback`: the user name handed to `CreateUser` is the
reported name, or, when that fails validation, `User` followed by the current
Unix time. -/
def chooseUserName {W : Type} (now : Clock W) (info : domainauth.OAuth2UserInfo) (w : W) :
    String × W :=
  match user.ValidateUserName info.name with
  | some _ => let t := now w; ("User" ++ FormatInt t.1.unix, t.2)
  | none => (info.name, w)

/-- Lines 146 to 182 of `Callback`: no user was found. -/
def loginNew {W : Type} (now : Clock W) (s : Service W) (provider : Provider)
    (info : domainauth.OAuth2UserInfo) (tr : List Event) (w : W) : Run W CallbackResponse :=
  let named : String × W := chooseUserName now info w
  let created := user.Service.CreateUser now s.userService named.1 info.email info.avatar
    user.PermissionReader named.2
  let tr1 := tr ++ created.trace
  match created.out with
  | Outcome.error _ =>
      { out := Outcome.error ErrInternalError, trace := tr1, world := created.world }
  | Outcome.panic => { out := Outcome.panic, trace := tr1, world := created.world }
  | Outcome.ok u =>
  let bound := bindThirdParty now provider u info.id created.world
  let saved := s.userRepo.Save bound.1 bound.2
  let tr2 := tr1 ++ [Event.Save Via.appService bound.1]
  match saved.err with
  | some _ => { out := Outcome.error ErrInternalError, trace := tr2, world := saved.world }
  | none =>
  match s.onUserCreated with
  | some hook =>
      let h := hook saved.val.id saved.world
      issueTokens now s saved.val (tr2 ++ [Event.OnUserCreated saved.val.id]) h.world
  | none => issueTokens now s saved.val tr2 saved.world

/-- Lines 117 to 197 of `Callback`: find or create the user for the
provider-reported identity, then issue tokens. `tr` is the trace so far. -/
def reconcile {W : Type} (now : Clock W) (s : Service W) (provider : Provider)
    (oauth2UserInfo : domainauth.OAuth2UserInfo) (tr : List Event) (w : W) :
    Run W CallbackResponse :=
  match user.NewEmail oauth2UserInfo.email with
  | Except.error _ => { out := Outcome.error ErrInternalError, trace := tr, world := w }
  | Except.ok email =>
  let found := s.userRepo.FindByEmail email w
  let tr1 := tr ++ [Event.FindByEmail Via.appService email]
  if (match found.err with
      | some err => !errorsIs err gormErrRecordNotFound
      | none => false) then
    { out := Outcome.error ErrInternalError, trace := tr1, world := found.world }
  else
  match found.val with
  | some u => loginExisting now s provider oauth2UserInfo u tr1 found.world
  | none => loginNew now s provider oauth2UserInfo tr1 found.world

/-- The method `Service.Callback`. -/
def Service.Callback {W : Type} (now : Clock W) (s : Service W) (cmd : CallbackCommand)
    (w : W) : Run W CallbackResponse :=
  match domainauth.Service.ValidateState s.authService cmd.State with
  | some _ => { out := Outcome.error ErrUnauthorized, trace := [], world := w }
  | none =>
  let provider : Provider := cmd.Provider
  match s.oauth2Providers provider with
  | none => { out := Outcome.error ErrInvalidProvider, trace := [], world := w }
  | some oauth2Provider =>
  let exchanged := oauth2Provider.ExchangeToken cmd.Code w
  let tr1 := [Event.ExchangeToken provider cmd.Code]
  match exchanged.err with
  | some _ => { out := Outcome.error ErrUnauthorized, trace := tr1, world := exchanged.world }
  | none =>
  let fetched := oauth2Provider.GetUserInfo exchanged.val exchanged.world
  let tr2 := tr1 ++ [Event.GetUserInfo provider exchanged.val]
  match fetched.err with
  | some _ => { out := Outcome.error ErrInternalError, trace := tr2, world := fetched.world }
  | none =>
  match fetched.val with
  | none => { out := Outcome.panic, trace := tr2, world := fetched.world }
  | some oauth2UserInfo => reconcile now s provider oauth2UserInfo tr2 fetched.world

/-- The callback passes state validation, finds `prov` configured for its
provider string, and both provider calls succeed, `GetUserInfo` returning
`info`: the run reaches reconciliation (line 117) with `info`. -/
def ReachesReconcile {W : Type} (s : Service W) (cmd : CallbackCommand) (w : W)
    (prov : domainauth.OAuth2Provider W) (info : domainauth.OAuth2UserInfo) : Prop :=
  cmd.State = s.authService.stateString ∧
  s.oauth2Providers cmd.Provider = some prov ∧
  (prov.ExchangeToken cmd.Code w).err = none ∧
  (prov.GetUserInfo (prov.ExchangeToken cmd.Code w).val
    (prov.ExchangeToken cmd.Code w).world).err = none ∧
  (prov.GetUserInfo (prov.ExchangeToken cmd.Code w).val
    (prov.ExchangeToken cmd.Code w).world).val = some info

/-- The world in which reconciliation starts: after both provider calls. -/
def worldAtReconcile {W : Type} (cmd : CallbackCommand) (w : W)
    (prov : domainauth.OAuth2Provider W) : W :=
  (prov.GetUserInfo (prov.ExchangeToken cmd.Code w).val
    (prov.ExchangeToken cmd.Code w).world).world

/-- The two provider calls every run that reaches reconciliation has made. -/
def providerCalls {W : Type} (cmd : CallbackCommand) (w : W)
    (prov : domainauth.OAuth2Provider W) : List Event :=
  [Event.ExchangeToken cmd.Provider cmd.Code,
   Event.GetUserInfo cmd.Provider (prov.ExchangeToken cmd.Code w).val]

/-- The calls made up to and including the email lookup. -/
def lookupCalls {W : Type} (cmd : CallbackCommand) (w : W)
    (prov : domainauth.OAuth2Provider W) (info : domainauth.OAuth2UserInfo) : List Event :=
  providerCalls cmd w prov ++ [Event.FindByEmail Via.appService { value := info.email }]

/-- What the email lookup of a run that reaches reconciliation returns. -/
def lookup {W : Type} (s : Service W) (cmd : CallbackCommand) (w : W)
    (prov : domainauth.OAuth2Provider W) (info : domainauth.OAuth2UserInfo) :
    Ret W (Option user.User) :=
  s.userRepo.FindByEmail { value := info.email } (worldAtReconcile cmd w prov)

/-- The run reaches the email lookup: it reaches reconciliation and the
reported email is not empty. -/
def ReachesLookup {W : Type} (s : Service W) (cmd : CallbackCommand) (w : W)
    (prov : domainauth.OAuth2Provider W) (info : domainauth.OAuth2UserInfo) : Prop :=
  ReachesReconcile s cmd w prov info ∧ info.email ≠ ""

/-- The run reaches the email lookup and the lookup returns the existing user
`u0`, with no error or with an error that is the not-found condition. -/
def FindsExisting {W : Type} (s : Service W) (cmd : CallbackCommand) (w : W)
    (prov : domainauth.OAuth2Provider W) (info : domainauth.OAuth2UserInfo)
    (u0 : user.User) : Prop :=
  ReachesLookup s cmd w prov info ∧
  (lookup s cmd w prov info).val = some u0 ∧
  ∀ err, (lookup s cmd w prov info).err = some err → errorsIs err gormErrRecordNotFound = true

/-- The run reaches the email lookup and the lookup returns no user, with no
error or with an error that is the not-found condition: a first-time login. -/
def FindsNone {W : Type} (s : Service W) (cmd : CallbackCommand) (w : W)
    (prov : domainauth.OAuth2Provider W) (info : domainauth.OAuth2UserInfo) : Prop :=
  ReachesLookup s cmd w prov info ∧
  (lookup s cmd w prov info).val = none ∧
  ∀ err, (lookup s cmd w prov info).err = some err → errorsIs err gormErrRecordNotFound = true

/-- The service `s` with its post-creation hook replaced. -/
def withHook {W : Type} (s : Service W) (hook : Option (Nat → W → Ret W Unit)) : Service W :=
  { s with onUserCreated := hook }

/-- The `CreateUser` call of the new-user branch (line 154), started in the
world `w` that the lookup left. -/
def createUserCall {W : Type} (now : Clock W) (s : Service W)
    (info : domainauth.OAuth2UserInfo) (w : W) : Run W user.User :=
  user.Service.CreateUser now s.userService (chooseUserName now info w).1 info.email
    info.avatar user.PermissionReader (chooseUserName now info w).2

/-- The `Save` of the new-user branch (line 168): the created user `u`, after the
bind statement, is saved through the application service. -/
def saveAfterBind {W : Type} (now : Clock W) (s : Service W) (provider : Provider)
    (info : domainauth.OAuth2UserInfo) (u : user.User) (w : W) : Ret W user.User :=
  s.userRepo.Save (bindThirdParty now provider u info.id w).1
    (bindThirdParty now provider u info.id w).2

/-- The `NewUser` call inside the `CreateUser` call of the new-user branch
(line 69 of the user domain service): it is made in the world that the lookup
of `CreateUser` left. `w` is the world that the lookup of `Callback` left. -/
def newUserCall {W : Type} (now : Clock W) (s : Service W)
    (info : domainauth.OAuth2UserInfo) (w : W) : Except GoError user.User × W :=
  user.NewUser now (chooseUserName now info w).1 { value := info.email } info.avatar
    user.PermissionReader
    (s.userService.repo.FindByEmail { value := info.email } (chooseUserName now info w).2).world

/-- The world in which the tokens of a first login are generated: the one the
hook call of line 175 leaves, `saved` being what the save of line 168
returned. -/
def worldAfterHook {W : Type} (hook : Nat → W → Ret W Unit) (saved : Ret W user.User) : W :=
  (hook saved.val.id saved.world).world

/-- The users handed to `Save` during a run, in call order. -/
def savedUsers : List Event → List user.User
  | [] => []
  | Event.Save _ u :: rest => u :: savedUsers rest
  | _ :: rest => savedUsers rest

/-- The external identifier a user has bound for a provider variant. -/
def binding (u : user.User) (p : Provider) : String :=
  if p = domainauth.ProviderGithub then u.githubBindID
  else if p = domainauth.ProviderGoogle then u.googleBindID
  else if p = domainauth.ProviderQQ then u.qqBindID
  else ""

end appauth

/-! ## internal/infrastructure/oauth2 -/

namespace oauth2

def githubUserURL : String := "https://api.github.com/user"
def githubUserEmailURL : String := "https://api.github.com/user/emails"

/-- The struct `GithubUserInfo` as the JSON decoder fills it; a field absent
from the document keeps its zero value. `ID` is an `int64`. -/
structure GithubUserInfo where
  ID : Int
  Login : String
  Email : String
  AvatarURL : String
  deriving DecidableEq, Repr

/-- The struct `GithubEmail`. -/
structure GithubEmail where
  Email : String
  Primary : Bool
  deriving DecidableEq, Repr

/-- What `GithubProvider.GetUserInfo` uses from outside the repository: `Get` is
`client.Get(url)` on the HTTP client authorised with the token and yields the
response body; the two decoders are the JSON decoder at the two struct types. -/
structure GithubClient (W : Type) where
  Get : OAuth2Token → String → W → Ret W String
  DecodeUser : String → Except GoError GithubUserInfo
  DecodeEmails : String → Except GoError (List GithubEmail)

/-- The call `fmt.Sprintf("%d", id)` for an integer. -/
def sprintfDecimal (id : Int) : String := FormatInt id

/-- Lines 94 to 100 of `GetUserInfo`: the loop over the addresses overwrites the
email of the profile with the first address flagged primary and stops. -/
def selectPrimaryEmail (userInfo : GithubUserInfo) : List GithubEmail → GithubUserInfo
  | [] => userInfo
  | email :: rest =>
      if email.Primary then { userInfo with Email := email.Email }
      else selectPrimaryEmail userInfo rest

/-- Lines 102 to 109 of `GetUserInfo`: the conversion to the domain model. -/
def toOAuth2UserInfo (userInfo : GithubUserInfo) : Except GoError domainauth.OAuth2UserInfo :=
  domainauth.NewOAuth2UserInfo (sprintfDecimal userInfo.ID) userInfo.Login userInfo.Email
    userInfo.AvatarURL domainauth.ProviderGithub

/-- The method `GithubProvider.GetUserInfo`. -/
def GithubProvider.GetUserInfo {W : Type} (client : GithubClient W) (token : OAuth2Token)
    (w : W) : Ret W (Option domainauth.OAuth2UserInfo) :=
  let resp := client.Get token githubUserURL w
  match resp.err with
  | some err => { val := none, err := some err, world := resp.world }
  | none =>
  match client.DecodeUser resp.val with
  | Except.error err => { val := none, err := some err, world := resp.world }
  | Except.ok userInfo =>
  let emailResp := client.Get token githubUserEmailURL resp.world
  match emailResp.err with
  | some err => { val := none, err := some err, world := emailResp.world }
  | none =>
  match client.DecodeEmails emailResp.val with
  | Except.error err => { val := none, err := some err, world := emailResp.world }
  | Except.ok emails =>
  match toOAuth2UserInfo (selectPrimaryEmail userInfo emails) with
  | Except.error err => { val := none, err := some err, world := emailResp.world }
  | Except.ok info => { val := some info, err := none, world := emailResp.world }

/-- The method `GithubProvider.GetProvider`. -/
def GithubProvider.GetProvider : Provider := domainauth.ProviderGithub

/-- Both requests of `GetUserInfo` succeed and decode to the profile
`profile` and the address list `emails`. -/
def Fetches {W : Type} (client : GithubClient W) (token : OAuth2Token) (w : W)
    (profile : GithubUserInfo) (emails : List GithubEmail) : Prop :=
  (client.Get token githubUserURL w).err = none ∧
  client.DecodeUser (client.Get token githubUserURL w).val = Except.ok profile ∧
  (client.Get token githubUserEmailURL (client.Get token githubUserURL w).world).err = none ∧
  client.DecodeEmails
    (client.Get token githubUserEmailURL (client.Get token githubUserURL w).world).val
      = Except.ok emails

end oauth2

/-! ## internal/handler -/

namespace handler

/-- Modelled from the spec: the package `protocol` is outside the sources at
hand; this is its error value `protocol.ErrUnauthorized`, the error kind
`Unauthorized` at the protocol boundary. -/
def ErrUnauthorized : GoError := GoError.sentinel "protocol" "ErrUnauthorized"

/-- Modelled from the spec: the error value `protocol.ErrInternalError`, the
error kind `InternalError` at the protocol boundary. -/
def ErrInternalError : GoError := GoError.sentinel "protocol" "ErrInternalError"

/-- Modelled from the spec: the request body `protocol.RefreshTokenBody`, of
which the handler reads the refresh token. -/
structure RefreshTokenBody where
  RefreshToken : String
  deriving DecidableEq, Repr

/-- Modelled from the spec: the response `protocol.RefreshTokenResponse`, into
which the handler puts the new access token. -/
structure RefreshTokenResponse where
  AccessToken : String
  deriving DecidableEq, Repr

/-- Modelled from the spec: the interface `auth.JwtTokenSigner` is declared
outside the sources at hand; by the Token Signer contract it has the methods
`EncodeToken` and `DecodeToken` of `TokenSigner`. -/
abbrev JwtTokenSigner (W : Type) := domainauth.TokenSigner W

/-- The struct `TokenHandler`. -/
structure TokenHandler (W : Type) where
  accessTokenSigner : JwtTokenSigner W
  refreshTokenSigner : JwtTokenSigner W

/-- The method `TokenHandler.HandleRefreshToken`. The outcome is what it sends
with `SendHTTPResponse`: the response data, or the protocol error. -/
def TokenHandler.HandleRefreshToken {W : Type} (h : TokenHandler W) (body : RefreshTokenBody)
    (w : W) : Run W RefreshTokenResponse :=
  let decoded := h.refreshTokenSigner.DecodeToken body.RefreshToken w
  let tr1 := [Event.DecodeToken Signer.refresh body.RefreshToken]
  match decoded.err with
  | some _ => { out := Outcome.error ErrUnauthorized, trace := tr1, world := decoded.world }
  | none =>
  let userID := decoded.val
  let encoded := h.accessTokenSigner.EncodeToken userID decoded.world
  let tr2 := tr1 ++ [Event.EncodeToken Signer.access userID]
  match encoded.err with
  | some _ => { out := Outcome.error ErrInternalError, trace := tr2, world := encoded.world }
  | none =>
      { out := Outcome.ok { AccessToken := encoded.val }, trace := tr2, world := encoded.world }

end handler

/-! ## internal/infrastructure/persistence -/

namespace persistence

/-- Modelled from the spec: the row type `model.User` is declared outside the
sources at hand; it carries the attributes of the User of the data model, under
the field names that `toPO` fills and `toDO` reads. -/
structure UserPO where
  ID : Nat
  CreatedAt : Time
  UpdatedAt : Time
  Name : String
  Email : String
  Avatar : String
  Permission : String
  LastLogin : Time
  GithubBindID : String
  QQBindID : String
  GoogleBindID : String
  deriving DecidableEq, Repr

/-- The map `updateData` that `Save` hands to the update of an existing row. -/
structure UpdateData where
  name : String
  email : String
  avatar : String
  permission : String
  last_login : Time
  github_bind_id : String
  qq_bind_id : String
  google_bind_id : String
  deriving DecidableEq, Repr

/-- What the repository uses of the data-access object `dao.UserDAO`, which is
declared outside the sources at hand: `Create` inserts the row and yields the
identifier it fills into the row, `Update` updates the row with the given
identifier, `GetByEmail` reads a row. -/
structure UserDAO (W : Type) where
  Create : UserPO → W → Ret W Nat
  Update : Nat → UpdateData → W → Ret W Unit
  GetByEmail : String → W → Ret W UserPO

/-- The method `UserRepository.toPO`. -/
def UserRepository.toPO (u : user.User) : UserPO :=
  { ID := u.id, CreatedAt := u.createdAt, UpdatedAt := u.updatedAt, Name := u.name,
    Email := u.email.value, Avatar := u.avatar, Permission := u.permission,
    LastLogin := u.lastLogin, GithubBindID := u.githubBindID, QQBindID := u.qqBindID,
    GoogleBindID := u.googleBindID }

/-- The function `ReconstructUser` of the user domain together with the method
`UserRepository.toDO` that calls it. -/
def UserRepository.toDO (po : UserPO) : Except GoError user.User :=
  match user.NewEmail po.Email with
  | Except.error err => Except.error err
  | Except.ok email =>
      Except.ok
        { id := po.ID, name := po.Name, email := email, avatar := po.Avatar,
          permission := po.Permission, lastLogin := po.LastLogin, createdAt := po.CreatedAt,
          updatedAt := po.UpdatedAt, githubBindID := po.GithubBindID,
          qqBindID := po.QQBindID, googleBindID := po.GoogleBindID }

/-- The method `UserRepository.Save`: a user with identifier 0 is created and
gets the identifier of the new row; any other user is updated. -/
def UserRepository.Save {W : Type} (dao : UserDAO W) (u : user.User) (w : W) :
    Ret W user.User :=
  let po := UserRepository.toPO u
  if u.id = 0 then
    let created := dao.Create po w
    match created.err with
    | some err => { val := u, err := some err, world := created.world }
    | none => { val := user.User.SetID u created.val, err := none, world := created.world }
  else
    let updateData : UpdateData :=
      { name := po.Name, email := po.Email, avatar := po.Avatar, permission := po.Permission,
        last_login := po.LastLogin, github_bind_id := po.GithubBindID,
        qq_bind_id := po.QQBindID, google_bind_id := po.GoogleBindID }
    let updated := dao.Update u.id updateData w
    { val := u, err := updated.err, world := updated.world }

/-- The method `UserRepository.FindByEmail`. -/
def UserRepository.FindByEmail {W : Type} (dao : UserDAO W) (email : user.Email) (w : W) :
    Ret W (Option user.User) :=
  let got := dao.GetByEmail email.value w
  match got.err with
  | some err => { val := none, err := some err, world := got.world }
  | none =>
  match UserRepository.toDO got.val with
  | Except.error err => { val := none, err := some err, world := got.world }
  | Except.ok u => { val := some u, err := none, world := got.world }

/-- The constructor `NewUserRepository`: the repository as a value of the
interface `user.Repository`. -/
def NewUserRepository {W : Type} (dao : UserDAO W) : user.Repository W :=
  { Save := UserRepository.Save dao, FindByEmail := UserRepository.FindByEmail dao }

end persistence

/-! ## Concrete collaborators

A small deployment over a counter world, used to run the flows on concrete
inputs. The world is the number of clock readings made so far. -/

namespace Demo

/-- A clock that ticks one second per reading. -/
def clock : Clock Nat := fun w => ({ unix := 1700000000 + w, nsec := 0 }, w + 1)

/-- A signer that issues the fixed string `tok` and decodes nothing. -/
def signer (tok : String) : domainauth.TokenSigner Nat :=
  { EncodeToken := fun _ w => { val := tok, err := none, world := w },
    DecodeToken := fun _ w =>
      { val := 0, err := some (GoError.errorsNew "token is malformed"), world := w } }

/-- The auth domain service with expected state `state-123`. -/
def authService : domainauth.Service Nat :=
  { accessTokenSigner := signer "access-jwt", refreshTokenSigner := signer "refresh-jwt",
    stateString := "state-123" }

/-- A provider that reports the identity `info`; its exchange fails with a
transport error for the code `bad`. -/
def provider (info : domainauth.OAuth2UserInfo) : domainauth.OAuth2Provider Nat :=
  { GetAuthURL := fun w => ("https://idp.example/authorize", w),
    ExchangeToken := fun code w =>
      if code = "bad" then
        { val := none, err := some (GoError.errorsNew "connection reset"), world := w }
      else { val := some code, err := none, world := w },
    GetUserInfo := fun _ w => { val := some info, err := none, world := w },
    GetProvider := info.provider }

/-- A registry with the single entry `p`. -/
def registry (p : Provider) (prov : domainauth.OAuth2Provider Nat) :
    Provider → Option (domainauth.OAuth2Provider Nat) :=
  fun q => if q = p then some prov else none

/-- A stored user with GitHub and QQ bindings. -/
def alice : user.User :=
  { id := 7, name := "alice", email := { value := "a@example.com" }, avatar := "",
    permission := user.PermissionReader,
    lastLogin := { unix := 1600000000, nsec := 0 },
    createdAt := { unix := 1600000000, nsec := 0 },
    updatedAt := { unix := 1600000000, nsec := 0 },
    githubBindID := "gh-old", qqBindID := "qq-old", googleBindID := "" }

/-- A repository that holds `alice` alone and back-fills identifier 8 on a
first save. -/
def repo : user.Repository Nat :=
  { Save := fun u w =>
      { val := if u.id = 0 then user.User.SetID u 8 else u, err := none, world := w },
    FindByEmail := fun e w =>
      if e = alice.email then { val := some alice, err := none, world := w }
      else { val := none, err := some gormErrRecordNotFound, world := w } }

/-- A repository whose lookup fails with a database error. -/
def brokenRepo : user.Repository Nat :=
  { Save := fun u w => { val := u, err := none, world := w },
    FindByEmail := fun _ w =>
      { val := none, err := some (GoError.errorsNew "connection refused"), world := w } }

/-- The auth application service over the given registry and repository,
without a post-creation hook. -/
def service (reg : Provider → Option (domainauth.OAuth2Provider Nat))
    (r : user.Repository Nat) : appauth.Service Nat :=
  { authService := authService, userRepo := r, userService := { repo := r },
    oauth2Providers := reg, onUserCreated := none }

/-- The identity a provider reports for `alice`. -/
def aliceInfo (p : Provider) (id : String) : domainauth.OAuth2UserInfo :=
  { id := id, name := "alice", email := "a@example.com", avatar := "", provider := p }

/-- A deployment whose registry holds one provider under the key `p`; the
provider reports `alice` with external identifier `id`. -/
def serviceFor (p : Provider) (id : String) : appauth.Service Nat :=
  service (registry p (provider (aliceInfo p id))) repo

/-- A callback with the expected state for provider `p`. -/
def callback (p : String) : appauth.CallbackCommand :=
  { Code := "c0de", State := "state-123", Provider := p }

/-- The identity a provider reports for a person the repository does not
know. -/
def bobInfo (p : Provider) (id : String) : domainauth.OAuth2UserInfo :=
  { id := id, name := "bob", email := "b@example.com", avatar := "https://img.example/bob",
    provider := p }

/-- The identity of a person the repository does not know, reported under the
name `x`, which is too short for a user name. -/
def xInfo : domainauth.OAuth2UserInfo :=
  { id := "5", name := "x", email := "x@example.com", avatar := "", provider := "github" }

/-- A clock that stands still. -/
def frozenClock : Clock Nat := fun w => ({ unix := 1700000000, nsec := 0 }, w)

/-- A post-creation hook that fails. -/
def failingHook : Nat → Nat → Ret Nat Unit :=
  fun _ w => { val := (), err := some (GoError.errorsNew "disk full"), world := w }

/-- A post-creation hook that succeeds. -/
def okHook : Nat → Nat → Ret Nat Unit :=
  fun _ w => { val := (), err := none, world := w }

/-- A deployment with the GitHub entry alone, whose provider reports `bob`. -/
def bobService (hook : Option (Nat → Nat → Ret Nat Unit)) : appauth.Service Nat :=
  appauth.withHook (service (registry "github" (provider (bobInfo "github" "99"))) repo) hook

/-- A signer whose `EncodeToken` and `DecodeToken` both fail. -/
def failingSigner : domainauth.TokenSigner Nat :=
  { EncodeToken := fun _ w =>
      { val := "", err := some (GoError.errorsNew "signing key missing"), world := w },
    DecodeToken := fun _ w =>
      { val := 0, err := some (GoError.errorsNew "token is malformed"), world := w } }

/-- The GitHub deployment for `alice` with a refresh signer that fails. -/
def brokenSignerService : appauth.Service Nat :=
  { serviceFor "github" "42" with
    authService := { accessTokenSigner := signer "access-jwt",
                     refreshTokenSigner := failingSigner, stateString := "state-123" } }

/-- A refresh signer that decodes the token `refresh-of-7` to the user 7 and
rejects every other token. -/
def refreshSigner : domainauth.TokenSigner Nat :=
  { EncodeToken := fun _ w => { val := "refresh-jwt", err := none, world := w },
    DecodeToken := fun token w =>
      if token = "refresh-of-7" then { val := 7, err := none, world := w }
      else { val := 0, err := some (GoError.errorsNew "token is malformed"), world := w } }

/-- A token handler over the access signer and `refreshSigner`. -/
def tokenHandler : handler.TokenHandler Nat :=
  { accessTokenSigner := signer "access-jwt", refreshTokenSigner := refreshSigner }

/-- A GitHub profile without an email of its own and without an identifier in
the document. -/
def profile : oauth2.GithubUserInfo :=
  { ID := 0, Login := "octocat", Email := "", AvatarURL := "https://img.example/octocat" }

/-- An address list whose second and third entries are flagged primary. -/
def emails : List oauth2.GithubEmail :=
  [{ Email := "old@example.com", Primary := false },
   { Email := "octo@example.com", Primary := true },
   { Email := "late@example.com", Primary := true }]

/-- An HTTP client whose two requests succeed and decode to `profile` and
`emails`. -/
def githubClient : oauth2.GithubClient Nat :=
  { Get := fun _ url w => { val := url, err := none, world := w },
    DecodeUser := fun _ => Except.ok profile,
    DecodeEmails := fun _ => Except.ok emails }

/-- A data-access object over an empty table: reads find no row, the insert
assigns the identifier 8, and every update fails. -/
def dao : persistence.UserDAO Nat :=
  { Create := fun _ w => { val := 8, err := none, world := w },
    Update := fun _ _ w =>
      { val := (), err := some (GoError.errorsNew "deadlock detected"), world := w },
    GetByEmail := fun _ w =>
      { val := persistence.UserRepository.toPO alice, err := some gormErrRecordNotFound,
        world := w } }

/-- The GitHub deployment for `bob` over the repository of the persistence
layer on `dao`, with a hook. -/
def daoService : appauth.Service Nat :=
  appauth.withHook
    (service (registry "github" (provider (bobInfo "github" "99")))
      (persistence.NewUserRepository dao)) (some okHook)

/-- A world with state: the clock readings made so far, the rows of the user
table and the user directories the hook has provisioned. -/
structure Store where
  ticks : Nat
  rows : List user.User
  dirs : List Nat
  deriving DecidableEq, Repr

/-- The clock over a `Store`: it ticks one second per reading. -/
def storeClock : Clock Store :=
  fun w => ({ unix := 1700000000 + w.ticks, nsec := 0 }, { w with ticks := w.ticks + 1 })

/-- An in-memory repository over the rows of a `Store`: a save of a user
without identifier appends a row under the next free identifier, a save of
another user replaces its row, and the lookup searches the rows. -/
def storeRepo : user.Repository Store :=
  { Save := fun u w =>
      if u.id = 0 then
        { val := user.User.SetID u (w.rows.length + 1), err := none,
          world := { w with rows := w.rows ++ [user.User.SetID u (w.rows.length + 1)] } }
      else
        { val := u, err := none,
          world := { w with rows := w.rows.map (fun r => if r.id = u.id then u else r) } },
    FindByEmail := fun e w =>
      match w.rows.find? (fun r => decide (r.email = e)) with
      | some r => { val := some r, err := none, world := w }
      | none => { val := none, err := some gormErrRecordNotFound, world := w } }

/-- A hook that provisions the directory of the user. -/
def storeHook : Nat → Store → Ret Store Unit :=
  fun userID w => { val := (), err := none, world := { w with dirs := w.dirs ++ [userID] } }

/-- A signer over a `Store` that issues the fixed string `tok`. -/
def storeSigner (tok : String) : domainauth.TokenSigner Store :=
  { EncodeToken := fun _ w => { val := tok, err := none, world := w },
    DecodeToken := fun _ w =>
      { val := 0, err := some (GoError.errorsNew "token is malformed"), world := w } }

/-- A GitHub provider over a `Store` that reports `bob`. -/
def storeProvider : domainauth.OAuth2Provider Store :=
  { GetAuthURL := fun w => ("https://idp.example/authorize", w),
    ExchangeToken := fun code w => { val := some code, err := none, world := w },
    GetUserInfo := fun _ w => { val := some (bobInfo "github" "99"), err := none, world := w },
    GetProvider := "github" }

/-- The GitHub deployment over the in-memory repository, with the provisioning
hook. -/
def storeService : appauth.Service Store :=
  { authService := { accessTokenSigner := storeSigner "access-jwt",
                     refreshTokenSigner := storeSigner "refresh-jwt",
                     stateString := "state-123" },
    userRepo := storeRepo, userService := { repo := storeRepo },
    oauth2Providers := fun q => if q = "github" then some storeProvider else none,
    onUserCreated := some storeHook }

/-- A `Store` whose table holds `alice` alone. -/
def store0 : Store := { ticks := 0, rows := [alice], dirs := [7] }

end Demo

/-! ## Theorems -/

namespace appauth

/-- A run that reaches reconciliation is the reconciliation of the reported
identity after the two provider calls. -/
theorem Callback_eq_reconcile {W : Type} (now : Clock W) (s : Service W)
    (cmd : CallbackCommand) (w : W) (prov : domainauth.OAuth2Provider W)
    (info : domainauth.OAuth2UserInfo) (h : ReachesReconcile s cmd w prov info) :
    Service.Callback now s cmd w =
      reconcile now s cmd.Provider info (providerCalls cmd w prov)
        (worldAtReconcile cmd w prov) := by
  obtain ⟨hState, hProv, hEx, hErr, hVal⟩ := h
  simp [Service.Callback, domainauth.Service.ValidateState, hState, hProv, hEx, hErr, hVal,
    providerCalls, worldAtReconcile]

end appauth

/-! ### State validation -/

namespace domainauth

/-- C2: `ValidateState` returns nil exactly when the received string equals the
configured expected state, and returns `ErrInvalidState` exactly when it does
not; nothing else is ever returned. -/
theorem ValidateState_exact {W : Type} (s : Service W) (state : String) :
    (Service.ValidateState s state = none ↔ state = s.stateString) ∧
    (Service.ValidateState s state = some ErrInvalidState ↔ state ≠ s.stateString) := by
  unfold Service.ValidateState
  by_cases h : state = s.stateString <;> simp [h]

/-- C2 at a concrete input: an empty received state against the non-empty
expected state `state-123` is rejected with `ErrInvalidState`. -/
theorem ValidateState_exact_witness :
    Service.ValidateState Demo.authService "" = some ErrInvalidState :=
  (ValidateState_exact Demo.authService "").2.mpr (by decide)

end domainauth

namespace appauth

/-- C1: a callback whose state differs from the configured expected state
ends with `ErrUnauthorized`, has called no collaborator at all (the trace is
empty: no exchange, no user-info, no repository, no hook, no signer) and
leaves the world untouched, whatever its code and provider. -/
theorem Callback_state_mismatch {W : Type} (now : Clock W) (s : Service W)
    (cmd : CallbackCommand) (w : W) (h : cmd.State ≠ s.authService.stateString) :
    (Service.Callback now s cmd w).out = Outcome.error ErrUnauthorized ∧
    (Service.Callback now s cmd w).trace = [] ∧
    (Service.Callback now s cmd w).world = w := by
  simp [Service.Callback, domainauth.Service.ValidateState, h]

/-- C1 at a concrete input: a forged state on an otherwise valid GitHub
callback. -/
theorem Callback_state_mismatch_witness :
    (Service.Callback Demo.clock
      (Demo.service (Demo.registry "github" (Demo.provider (Demo.aliceInfo "github" "42")))
        Demo.repo)
      { Code := "c0de", State := "forged", Provider := "github" } 0).out
        = Outcome.error ErrUnauthorized ∧
    (Service.Callback Demo.clock
      (Demo.service (Demo.registry "github" (Demo.provider (Demo.aliceInfo "github" "42")))
        Demo.repo)
      { Code := "c0de", State := "forged", Provider := "github" } 0).trace = [] :=
  let h := Callback_state_mismatch Demo.clock
    (Demo.service (Demo.registry "github" (Demo.provider (Demo.aliceInfo "github" "42")))
      Demo.repo)
    { Code := "c0de", State := "forged", Provider := "github" } 0 (by decide)
  ⟨h.1, h.2.1⟩

/-- C3: `Login` succeeds exactly when the provider string is one of `github`,
`google`, `qq` and the registry has an entry for it; then the redirect URL is
that entry's `GetAuthURL()` result (its only collaborator call). In every
other case it returns `ErrInvalidProvider` and has called no provider method. -/
theorem Login_spec {W : Type} (s : Service W) (cmd : LoginCommand) (w : W) :
    (((cmd.Provider = "github" ∨ cmd.Provider = "google" ∨ cmd.Provider = "qq") ∧
      ∃ prov, s.oauth2Providers cmd.Provider = some prov ∧
        (Service.Login s cmd w).out = Outcome.ok { RedirectURL := (prov.GetAuthURL w).1 } ∧
        (Service.Login s cmd w).trace = [Event.GetAuthURL cmd.Provider]) ∨
     (¬ ((cmd.Provider = "github" ∨ cmd.Provider = "google" ∨ cmd.Provider = "qq") ∧
          (s.oauth2Providers cmd.Provider).isSome = true) ∧
      (Service.Login s cmd w).out = Outcome.error ErrInvalidProvider ∧
      (Service.Login s cmd w).trace = [] ∧
      (Service.Login s cmd w).world = w)) ∧
    ((∃ resp, (Service.Login s cmd w).out = Outcome.ok resp) ↔
      ((cmd.Provider = "github" ∨ cmd.Provider = "google" ∨ cmd.Provider = "qq") ∧
        (s.oauth2Providers cmd.Provider).isSome = true)) := by
  have hv : domainauth.Provider.IsValid cmd.Provider = true ↔
      (cmd.Provider = "github" ∨ cmd.Provider = "google" ∨ cmd.Provider = "qq") := by
    simp [domainauth.Provider.IsValid, domainauth.ProviderGithub, domainauth.ProviderQQ,
      domainauth.ProviderGoogle]
    tauto
  by_cases hvalid : domainauth.Provider.IsValid cmd.Provider = true
  · have hp := hv.mp hvalid
    cases hreg : s.oauth2Providers cmd.Provider with
    | none => simp [Service.Login, hvalid, hreg]
    | some prov => simp [Service.Login, hvalid, hreg, hp]
  · have hp : ¬ (cmd.Provider = "github" ∨ cmd.Provider = "google" ∨ cmd.Provider = "qq") :=
      fun h => hvalid (hv.mpr h)
    simp [Service.Login, hvalid, hp]

/-- C4 as amended: a callback whose state matches and whose provider string
has no entry in the registry ends with `ErrInvalidProvider`, has called no
collaborator and leaves the world untouched, for every code. -/
theorem Callback_unconfigured_provider {W : Type} (now : Clock W) (s : Service W)
    (cmd : CallbackCommand) (w : W) (hState : cmd.State = s.authService.stateString)
    (hReg : s.oauth2Providers cmd.Provider = none) :
    (Service.Callback now s cmd w).out = Outcome.error ErrInvalidProvider ∧
    (Service.Callback now s cmd w).trace = [] ∧
    (Service.Callback now s cmd w).world = w := by
  simp [Service.Callback, domainauth.Service.ValidateState, hState, hReg]

/-- C4 as amended, at a concrete input: provider `gitlab` against a registry
that holds GitHub only. -/
theorem Callback_unconfigured_provider_witness :
    (Service.Callback Demo.clock
      (Demo.service (Demo.registry "github" (Demo.provider (Demo.aliceInfo "github" "42")))
        Demo.repo)
      { Code := "c0de", State := "state-123", Provider := "gitlab" } 0).out
        = Outcome.error ErrInvalidProvider :=
  (Callback_unconfigured_provider Demo.clock
    (Demo.service (Demo.registry "github" (Demo.provider (Demo.aliceInfo "github" "42")))
      Demo.repo)
    { Code := "c0de", State := "state-123", Provider := "gitlab" } 0 (by decide) rfl).1

/-- C4 as stated fails twice. With a mismatching state, an unconfigured
provider ends with `ErrUnauthorized`, not `ErrInvalidProvider`: state is
validated first. And `Callback` never asks `IsValid`: the unknown provider
string `gitlab`, when the registry holds an entry under that key, is exchanged
against and the login succeeds. -/
theorem Callback_invalid_provider_counterexample :
    (Demo.registry "github" (Demo.provider (Demo.aliceInfo "github" "42")) "gitlab" = none ∧
     (Service.Callback Demo.clock
        (Demo.service (Demo.registry "github" (Demo.provider (Demo.aliceInfo "github" "42")))
          Demo.repo)
        { Code := "c0de", State := "forged", Provider := "gitlab" } 0).out
          = Outcome.error ErrUnauthorized ∧
     ErrUnauthorized ≠ ErrInvalidProvider) ∧
    (domainauth.Provider.IsValid "gitlab" = false ∧
     (Service.Callback Demo.clock
        (Demo.service (Demo.registry "gitlab" (Demo.provider (Demo.aliceInfo "gitlab" "42")))
          Demo.repo)
        { Code := "c0de", State := "state-123", Provider := "gitlab" } 0).out
          = Outcome.ok { AccessToken := "access-jwt", RefreshToken := "refresh-jwt" } ∧
     Event.ExchangeToken "gitlab" "c0de" ∈
       (Service.Callback Demo.clock
        (Demo.service (Demo.registry "gitlab" (Demo.provider (Demo.aliceInfo "gitlab" "42")))
          Demo.repo)
        { Code := "c0de", State := "state-123", Provider := "gitlab" } 0).trace) := by
  refine ⟨⟨rfl, by decide, by decide⟩, by decide, by decide, by decide⟩

/-- C5: with a matching state and a configured provider whose `ExchangeToken`
returns an error, `Callback` ends with `ErrUnauthorized` and its only
collaborator call is that exchange: no `GetUserInfo`, no `FindByEmail`, no
`Save`, no hook, no signer. -/
theorem Callback_exchange_error {W : Type} (now : Clock W) (s : Service W)
    (cmd : CallbackCommand) (w : W) (prov : domainauth.OAuth2Provider W) (e : GoError)
    (hState : cmd.State = s.authService.stateString)
    (hReg : s.oauth2Providers cmd.Provider = some prov)
    (hEx : (prov.ExchangeToken cmd.Code w).err = some e) :
    (Service.Callback now s cmd w).out = Outcome.error ErrUnauthorized ∧
    (Service.Callback now s cmd w).trace = [Event.ExchangeToken cmd.Provider cmd.Code] ∧
    (Service.Callback now s cmd w).world = (prov.ExchangeToken cmd.Code w).world := by
  simp [Service.Callback, domainauth.Service.ValidateState, hState, hReg, hEx]

/-- C5 at a concrete input: the exchange of code `bad` fails with a transport
error. -/
theorem Callback_exchange_error_witness :
    (Service.Callback Demo.clock
      (Demo.service (Demo.registry "github" (Demo.provider (Demo.aliceInfo "github" "42")))
        Demo.repo)
      { Code := "bad", State := "state-123", Provider := "github" } 0).trace
        = [Event.ExchangeToken "github" "bad"] :=
  (Callback_exchange_error Demo.clock
    (Demo.service (Demo.registry "github" (Demo.provider (Demo.aliceInfo "github" "42")))
      Demo.repo)
    { Code := "bad", State := "state-123", Provider := "github" } 0
    (Demo.provider (Demo.aliceInfo "github" "42")) (GoError.errorsNew "connection reset")
    (by decide) rfl (by decide)).2.1


/-- Token issuance fails with `ErrInternalError` only. -/
theorem issueTokens_error {W : Type} (now : Clock W) (s : Service W) (u : user.User)
    (tr : List Event) (w : W) (e : GoError)
    (h : (issueTokens now s u tr w).out = Outcome.error e) : e = ErrInternalError := by
  unfold issueTokens at h
  dsimp only at h
  split at h <;> simp_all

/-- The existing-user branch fails with `ErrInternalError` only. -/
theorem loginExisting_error {W : Type} (now : Clock W) (s : Service W) (provider : Provider)
    (info : domainauth.OAuth2UserInfo) (u : user.User) (tr : List Event) (w : W) (e : GoError)
    (h : (loginExisting now s provider info u tr w).out = Outcome.error e) :
    e = ErrInternalError := by
  unfold loginExisting at h
  dsimp only at h
  split at h
  · simp_all
  · exact issueTokens_error _ _ _ _ _ _ h

/-- The new-user branch fails with `ErrInternalError` only. -/
theorem loginNew_error {W : Type} (now : Clock W) (s : Service W) (provider : Provider)
    (info : domainauth.OAuth2UserInfo) (tr : List Event) (w : W) (e : GoError)
    (h : (loginNew now s provider info tr w).out = Outcome.error e) :
    e = ErrInternalError := by
  unfold loginNew at h
  dsimp only at h
  generalize chooseUserName now info w = named at h
  split at h
  · simp_all
  · simp_all
  · split at h
    · simp_all
    · split at h <;> exact issueTokens_error _ _ _ _ _ _ h

/-- Reconciliation fails with `ErrInternalError` only. -/
theorem reconcile_error {W : Type} (now : Clock W) (s : Service W) (provider : Provider)
    (info : domainauth.OAuth2UserInfo) (tr : List Event) (w : W) (e : GoError)
    (h : (reconcile now s provider info tr w).out = Outcome.error e) :
    e = ErrInternalError := by
  unfold reconcile at h
  dsimp only at h
  split at h
  · simp_all
  · split at h
    · simp_all
    · split at h
      · exact loginExisting_error _ _ _ _ _ _ _ _ h
      · exact loginNew_error _ _ _ _ _ _ _ h

/-- C6: whatever the command and however the provider, repository, hook,
signers and clock behave, an error returned by `Callback` is one of
`ErrUnauthorized`, `ErrInvalidProvider`, `ErrInternalError`: the error values
of collaborators are never handed to the caller. -/
theorem Callback_error_taxonomy {W : Type} (now : Clock W) (s : Service W)
    (cmd : CallbackCommand) (w : W) (e : GoError)
    (h : (Service.Callback now s cmd w).out = Outcome.error e) :
    e = ErrUnauthorized ∨ e = ErrInvalidProvider ∨ e = ErrInternalError := by
  unfold Service.Callback at h
  dsimp only at h
  split at h
  · simp_all
  · split at h
    · simp_all
    · split at h
      · simp_all
      · split at h
        · simp_all
        · split at h
          · simp_all
          · exact Or.inr (Or.inr (reconcile_error _ _ _ _ _ _ _ h))


/-- A successful `GenerateTokens` called each signer once, access first, for the
same identifier, and pairs their outputs without swapping them. -/
theorem GenerateTokens_ok {W : Type} (now : Clock W) (s : domainauth.Service W) (userID : Nat)
    (w : W) (t : domainauth.Token)
    (h : (domainauth.Service.GenerateTokens now s userID w).out = Outcome.ok t) :
    (domainauth.Service.GenerateTokens now s userID w).trace =
      [Event.EncodeToken Signer.access userID, Event.EncodeToken Signer.refresh userID] ∧
    t.accessToken = (s.accessTokenSigner.EncodeToken userID w).val ∧
    t.refreshToken = (s.refreshTokenSigner.EncodeToken userID
      (s.accessTokenSigner.EncodeToken userID w).world).val := by
  unfold domainauth.Service.GenerateTokens at h ⊢
  dsimp only at h ⊢
  split at h
  · simp at h
  · split at h
    · simp at h
    · rename_i h1 _ h2
      simp only [h1, h2]
      simp only [Outcome.ok.injEq] at h
      subst h
      simp [domainauth.NewToken]

/-- Token issuance appends the signer calls to the trace. -/
theorem issueTokens_trace {W : Type} (now : Clock W) (s : Service W) (u : user.User)
    (tr : List Event) (w : W) :
    (issueTokens now s u tr w).trace =
      tr ++ (domainauth.Service.GenerateTokens now s.authService u.id w).trace := by
  unfold issueTokens
  dsimp only
  split <;> rfl

/-- A successful token issuance appends exactly one access and one refresh
signer call for the identifier of the user and answers with their outputs. -/
theorem issueTokens_ok {W : Type} (now : Clock W) (s : Service W) (u : user.User)
    (tr : List Event) (w : W) (resp : CallbackResponse)
    (h : (issueTokens now s u tr w).out = Outcome.ok resp) :
    (issueTokens now s u tr w).trace =
      tr ++ [Event.EncodeToken Signer.access u.id, Event.EncodeToken Signer.refresh u.id] ∧
    resp.AccessToken = (s.authService.accessTokenSigner.EncodeToken u.id w).val ∧
    resp.RefreshToken = (s.authService.refreshTokenSigner.EncodeToken u.id
      (s.authService.accessTokenSigner.EncodeToken u.id w).world).val := by
  rw [issueTokens_trace]
  unfold issueTokens at h
  dsimp only at h
  split at h
  · rename_i tokens hg
    have := GenerateTokens_ok now s.authService u.id w tokens hg
    simp only [Outcome.ok.injEq] at h
    subst h
    simp [this]
  · simp at h
  · simp at h


/-- A run whose lookup finds a user is the existing-user branch after the
lookup. -/
theorem Callback_eq_loginExisting {W : Type} (now : Clock W) (s : Service W)
    (cmd : CallbackCommand) (w : W) (prov : domainauth.OAuth2Provider W)
    (info : domainauth.OAuth2UserInfo) (u0 : user.User)
    (h : FindsExisting s cmd w prov info u0) :
    Service.Callback now s cmd w =
      loginExisting now s cmd.Provider info u0 (lookupCalls cmd w prov info)
        (lookup s cmd w prov info).world := by
  obtain ⟨⟨hReach, hEmail⟩, hVal, hErr⟩ := h
  rw [Callback_eq_reconcile now s cmd w prov info hReach]
  unfold lookup at hVal hErr
  unfold reconcile
  simp only [user.NewEmail, hEmail, if_false]
  rw [hVal]
  cases hE : (s.userRepo.FindByEmail { value := info.email } (worldAtReconcile cmd w prov)).err with
  | none => simp [lookupCalls, lookup]
  | some err => simp [hErr err hE, lookupCalls, lookup]

/-- C7: when a run reaches the email lookup and `FindByEmail` returns an error
that is not the not-found condition, `Callback` ends with `ErrInternalError`
and the lookup was its last collaborator call: no `Save`, no user creation,
no hook, no signer. -/
theorem Callback_lookup_error {W : Type} (now : Clock W) (s : Service W)
    (cmd : CallbackCommand) (w : W) (prov : domainauth.OAuth2Provider W)
    (info : domainauth.OAuth2UserInfo) (err : GoError)
    (h : ReachesLookup s cmd w prov info)
    (hErr : (lookup s cmd w prov info).err = some err)
    (hNot : errorsIs err gormErrRecordNotFound = false) :
    (Service.Callback now s cmd w).out = Outcome.error ErrInternalError ∧
    (Service.Callback now s cmd w).trace = lookupCalls cmd w prov info ∧
    (Service.Callback now s cmd w).world = (lookup s cmd w prov info).world := by
  obtain ⟨hReach, hEmail⟩ := h
  rw [Callback_eq_reconcile now s cmd w prov info hReach]
  unfold lookup at hErr
  unfold reconcile
  simp only [user.NewEmail, hEmail, if_false]
  simp [hErr, hNot, lookupCalls, lookup]


/-- Token issuance only appends to the trace. -/
theorem issueTokens_extends {W : Type} (now : Clock W) (s : Service W) (u : user.User)
    (tr : List Event) (w : W) : tr <+: (issueTokens now s u tr w).trace := by
  rw [issueTokens_trace]
  exact List.prefix_append _ _

/-- The existing-user branch only appends to the trace. -/
theorem loginExisting_extends {W : Type} (now : Clock W) (s : Service W) (provider : Provider)
    (info : domainauth.OAuth2UserInfo) (u : user.User) (tr : List Event) (w : W) :
    tr <+: (loginExisting now s provider info u tr w).trace := by
  unfold loginExisting
  dsimp only
  split
  · exact List.prefix_append _ _
  · exact (List.prefix_append _ _).trans (issueTokens_extends _ _ _ _ _)

/-- The new-user branch only appends to the trace. -/
theorem loginNew_extends {W : Type} (now : Clock W) (s : Service W) (provider : Provider)
    (info : domainauth.OAuth2UserInfo) (tr : List Event) (w : W) :
    tr <+: (loginNew now s provider info tr w).trace := by
  unfold loginNew
  dsimp only
  generalize chooseUserName now info w = named
  split
  · exact List.prefix_append _ _
  · exact List.prefix_append _ _
  · split
    · exact (List.prefix_append _ _).trans (List.prefix_append _ _)
    · split
      · exact ((List.prefix_append _ _).trans (List.prefix_append _ _)).trans
          ((List.prefix_append _ _).trans (issueTokens_extends _ _ _ _ _))
      · exact ((List.prefix_append _ _).trans (List.prefix_append _ _)).trans
          (issueTokens_extends _ _ _ _ _)

/-- C8 as amended: in a run that reaches reconciliation, an empty reported email
ends the run with `ErrInternalError` right after the two provider calls, before
any lookup, creation or save; every non-empty email, whatever its form, is
accepted by `NewEmail` and looked up next. -/
theorem Callback_email_check {W : Type} (now : Clock W) (s : Service W)
    (cmd : CallbackCommand) (w : W) (prov : domainauth.OAuth2Provider W)
    (info : domainauth.OAuth2UserInfo) (h : ReachesReconcile s cmd w prov info) :
    (info.email = "" ∧
      (Service.Callback now s cmd w).out = Outcome.error ErrInternalError ∧
      (Service.Callback now s cmd w).trace = providerCalls cmd w prov) ∨
    (info.email ≠ "" ∧ lookupCalls cmd w prov info <+: (Service.Callback now s cmd w).trace) := by
  rw [Callback_eq_reconcile now s cmd w prov info h]
  by_cases hEmail : info.email = ""
  · left
    simp [reconcile, user.NewEmail, hEmail]
  · right
    refine ⟨hEmail, ?_⟩
    unfold reconcile
    simp only [user.NewEmail, hEmail, if_false]
    split
    · exact List.prefix_refl _
    · split
      · exact loginExisting_extends _ _ _ _ _ _ _
      · exact loginNew_extends _ _ _ _ _ _


/-- The saved users of a concatenated trace. -/
theorem savedUsers_append (a b : List Event) :
    savedUsers (a ++ b) = savedUsers a ++ savedUsers b := by
  induction a with
  | nil => rfl
  | cons e rest ih => cases e <;> simp [savedUsers, ih]

/-- Token generation saves nothing. -/
theorem savedUsers_GenerateTokens {W : Type} (now : Clock W) (s : domainauth.Service W)
    (userID : Nat) (w : W) :
    savedUsers (domainauth.Service.GenerateTokens now s userID w).trace = [] := by
  unfold domainauth.Service.GenerateTokens
  dsimp only
  split
  · rfl
  · split <;> rfl

/-- Nothing is saved up to the lookup. -/
theorem savedUsers_lookupCalls {W : Type} (cmd : CallbackCommand) (w : W)
    (prov : domainauth.OAuth2Provider W) (info : domainauth.OAuth2UserInfo) :
    savedUsers (lookupCalls cmd w prov info) = [] := rfl

/-- For GitHub and Google the bind statement sets the binding of that provider
to a non-empty external identifier. -/
theorem bindThirdParty_binding {W : Type} (now : Clock W) (provider : Provider)
    (u : user.User) (externalID : String) (w : W)
    (hp : provider = "github" ∨ provider = "google") (hid : externalID ≠ "") :
    binding (bindThirdParty now provider u externalID w).1 provider = externalID := by
  rcases hp with hp | hp <;> subst hp <;>
    simp [bindThirdParty, binding, domainauth.ProviderGithub, domainauth.ProviderGoogle,
      user.User.BindGithub, user.User.BindGoogle, hid]

/-- The bind statement leaves identifier, name, email, last login and creation
time alone. -/
theorem bindThirdParty_frame {W : Type} (now : Clock W) (provider : Provider)
    (u : user.User) (externalID : String) (w : W) :
    (bindThirdParty now provider u externalID w).1.id = u.id ∧
    (bindThirdParty now provider u externalID w).1.name = u.name ∧
    (bindThirdParty now provider u externalID w).1.email = u.email ∧
    (bindThirdParty now provider u externalID w).1.lastLogin = u.lastLogin ∧
    (bindThirdParty now provider u externalID w).1.createdAt = u.createdAt := by
  unfold bindThirdParty user.User.BindGithub user.User.BindGoogle
  dsimp only
  split
  · split <;> simp
  · split
    · split <;> simp
    · simp

/-- C9 as amended: for provider `github` or `google` and a non-empty reported
external identifier, a run whose lookup finds an existing user calls `Save`
exactly once, on a user that keeps the found identifier and whose binding for
that provider is the reported external identifier, whatever it was before. -/
theorem Callback_existing_binding {W : Type} (now : Clock W) (s : Service W)
    (cmd : CallbackCommand) (w : W) (prov : domainauth.OAuth2Provider W)
    (info : domainauth.OAuth2UserInfo) (u0 : user.User)
    (hp : cmd.Provider = "github" ∨ cmd.Provider = "google") (hid : info.id ≠ "")
    (h : FindsExisting s cmd w prov info u0) :
    ∃ u1, savedUsers (Service.Callback now s cmd w).trace = [u1] ∧
      binding u1 cmd.Provider = info.id ∧ u1.id = u0.id := by
  rw [Callback_eq_loginExisting now s cmd w prov info u0 h]
  refine ⟨(bindThirdParty now cmd.Provider
    (user.User.RecordLogin now u0 (lookup s cmd w prov info).world).1 info.id
    (user.User.RecordLogin now u0 (lookup s cmd w prov info).world).2).1, ?_,
    bindThirdParty_binding _ _ _ _ _ hp hid, ?_⟩
  · unfold loginExisting
    dsimp only
    split
    · simp [savedUsers_append, savedUsers_lookupCalls, savedUsers]
    · simp [issueTokens_trace, savedUsers_append, savedUsers_lookupCalls, savedUsers,
        savedUsers_GenerateTokens]
  · rw [(bindThirdParty_frame _ _ _ _ _).1]
    rfl

/-- C10: a successful run whose lookup finds an existing user `u0` made, after
the lookup, exactly three collaborator calls: one `Save` through the
application service, on the found user (same identifier, name, email and
creation time) with `lastLogin` set to the clock reading taken right after the
lookup, then one access and one refresh `EncodeToken` for the identifier that
user has when `Save` returns. So no user is created (the user domain service
is not entered), the hook is not invoked, and the response carries that one
token pair. -/
theorem Callback_existing_login {W : Type} (now : Clock W) (s : Service W)
    (cmd : CallbackCommand) (w : W) (prov : domainauth.OAuth2Provider W)
    (info : domainauth.OAuth2UserInfo) (u0 : user.User) (resp : CallbackResponse)
    (h : FindsExisting s cmd w prov info u0)
    (hOk : (Service.Callback now s cmd w).out = Outcome.ok resp) :
    ∃ (u1 : user.User) (w1 : W),
      (Service.Callback now s cmd w).trace =
        lookupCalls cmd w prov info ++
          [Event.Save Via.appService u1,
           Event.EncodeToken Signer.access (s.userRepo.Save u1 w1).val.id,
           Event.EncodeToken Signer.refresh (s.userRepo.Save u1 w1).val.id] ∧
      u1.id = u0.id ∧ u1.name = u0.name ∧ u1.email = u0.email ∧ u1.createdAt = u0.createdAt ∧
      u1.lastLogin = (now (lookup s cmd w prov info).world).1 ∧
      (s.userRepo.Save u1 w1).err = none ∧
      resp.AccessToken = (s.authService.accessTokenSigner.EncodeToken
        (s.userRepo.Save u1 w1).val.id (s.userRepo.Save u1 w1).world).val ∧
      resp.RefreshToken = (s.authService.refreshTokenSigner.EncodeToken
        (s.userRepo.Save u1 w1).val.id
        (s.authService.accessTokenSigner.EncodeToken
          (s.userRepo.Save u1 w1).val.id (s.userRepo.Save u1 w1).world).world).val := by
  rw [Callback_eq_loginExisting now s cmd w prov info u0 h] at hOk ⊢
  refine ⟨(bindThirdParty now cmd.Provider
    (user.User.RecordLogin now u0 (lookup s cmd w prov info).world).1 info.id
    (user.User.RecordLogin now u0 (lookup s cmd w prov info).world).2).1,
    (bindThirdParty now cmd.Provider
    (user.User.RecordLogin now u0 (lookup s cmd w prov info).world).1 info.id
    (user.User.RecordLogin now u0 (lookup s cmd w prov info).world).2).2, ?_⟩
  have hf := bindThirdParty_frame now cmd.Provider
    (user.User.RecordLogin now u0 (lookup s cmd w prov info).world).1 info.id
    (user.User.RecordLogin now u0 (lookup s cmd w prov info).world).2
  unfold loginExisting at hOk ⊢
  dsimp only at hOk ⊢
  split at hOk
  · simp at hOk
  · rename_i hSave
    have ht := issueTokens_ok now s _ _ _ resp hOk
    simp only [hSave]
    refine ⟨?_, hf.1, hf.2.1, hf.2.2.1, hf.2.2.2.2, hf.2.2.2.1, trivial, ht.2.1, ht.2.2⟩
    rw [ht.1]
    simp


/-- C6 at a concrete input: a failed exchange surfaces as `ErrUnauthorized`,
not as the provider's transport error. -/
theorem Callback_error_taxonomy_witness :
    (Service.Callback Demo.clock (Demo.serviceFor "github" "42")
      { Code := "bad", State := "state-123", Provider := "github" } 0).out
        = Outcome.error ErrUnauthorized ∧
    (ErrUnauthorized = ErrUnauthorized ∨ ErrUnauthorized = ErrInvalidProvider ∨
      ErrUnauthorized = ErrInternalError) :=
  ⟨by decide, Callback_error_taxonomy Demo.clock (Demo.serviceFor "github" "42")
    { Code := "bad", State := "state-123", Provider := "github" } 0 ErrUnauthorized
    (by decide)⟩

/-- C7 at a concrete input: the lookup fails with a database error. -/
theorem Callback_lookup_error_witness :
    (Service.Callback Demo.clock
      (Demo.service (Demo.registry "github" (Demo.provider (Demo.aliceInfo "github" "42")))
        Demo.brokenRepo) (Demo.callback "github") 0).out = Outcome.error ErrInternalError ∧
    (Service.Callback Demo.clock
      (Demo.service (Demo.registry "github" (Demo.provider (Demo.aliceInfo "github" "42")))
        Demo.brokenRepo) (Demo.callback "github") 0).trace =
      [Event.ExchangeToken "github" "c0de", Event.GetUserInfo "github" (some "c0de"),
       Event.FindByEmail Via.appService { value := "a@example.com" }] :=
  let h := Callback_lookup_error Demo.clock
    (Demo.service (Demo.registry "github" (Demo.provider (Demo.aliceInfo "github" "42")))
      Demo.brokenRepo) (Demo.callback "github") 0
    (Demo.provider (Demo.aliceInfo "github" "42")) (Demo.aliceInfo "github" "42")
    (GoError.errorsNew "connection refused")
    ⟨⟨rfl, rfl, rfl, rfl, rfl⟩, by decide⟩ rfl (by decide)
  ⟨h.1, h.2.1⟩

/-- C8 as stated fails: the reported email `not-an-email` is non-empty and has no
`@`, yet it is looked up, a user with that email is created and saved, and the
login succeeds. -/
theorem Callback_email_check_counterexample :
    '@' ∉ "not-an-email".data ∧
    (Service.Callback Demo.clock
      (Demo.service (Demo.registry "github" (Demo.provider
        { id := "42", name := "alice", email := "not-an-email", avatar := "",
          provider := "github" })) Demo.repo) (Demo.callback "github") 0).out
      = Outcome.ok { AccessToken := "access-jwt", RefreshToken := "refresh-jwt" } ∧
    Event.FindByEmail Via.appService { value := "not-an-email" } ∈
      (Service.Callback Demo.clock
        (Demo.service (Demo.registry "github" (Demo.provider
          { id := "42", name := "alice", email := "not-an-email", avatar := "",
            provider := "github" })) Demo.repo) (Demo.callback "github") 0).trace ∧
    (savedUsers (Service.Callback Demo.clock
        (Demo.service (Demo.registry "github" (Demo.provider
          { id := "42", name := "alice", email := "not-an-email", avatar := "",
            provider := "github" })) Demo.repo) (Demo.callback "github") 0).trace).map
      (fun u => u.email.value) = ["not-an-email", "not-an-email"] := by
  refine ⟨by decide, by decide, by decide, by decide⟩


/-- C8 as amended, at a concrete input: the provider reports an empty email. -/
theorem Callback_email_check_witness :
    (Service.Callback Demo.clock
      (Demo.service (Demo.registry "github" (Demo.provider
        { id := "42", name := "alice", email := "", avatar := "", provider := "github" }))
        Demo.repo) (Demo.callback "github") 0).out = Outcome.error ErrInternalError ∧
    (Service.Callback Demo.clock
      (Demo.service (Demo.registry "github" (Demo.provider
        { id := "42", name := "alice", email := "", avatar := "", provider := "github" }))
        Demo.repo) (Demo.callback "github") 0).trace =
      [Event.ExchangeToken "github" "c0de", Event.GetUserInfo "github" (some "c0de")] :=
  (Callback_email_check Demo.clock
    (Demo.service (Demo.registry "github" (Demo.provider
      { id := "42", name := "alice", email := "", avatar := "", provider := "github" }))
      Demo.repo) (Demo.callback "github") 0
    (Demo.provider
      { id := "42", name := "alice", email := "", avatar := "", provider := "github" })
    { id := "42", name := "alice", email := "", avatar := "", provider := "github" }
    ⟨rfl, rfl, rfl, rfl, rfl⟩).elim (fun h => h.2) (fun h => absurd rfl h.1)

/-- C9 as stated fails for `qq`: with a QQ provider configured and an existing
user bound to `qq-old`, a successful callback reporting `qq-42` saves the user
with the QQ binding still `qq-old`. -/
theorem Callback_existing_binding_counterexample :
    domainauth.Provider.IsValid "qq" = true ∧
    (Service.Callback Demo.clock (Demo.serviceFor "qq" "qq-42") (Demo.callback "qq") 0).out
      = Outcome.ok { AccessToken := "access-jwt", RefreshToken := "refresh-jwt" } ∧
    (savedUsers (Service.Callback Demo.clock (Demo.serviceFor "qq" "qq-42")
      (Demo.callback "qq") 0).trace).map (fun u => (u.id, binding u "qq"))
      = [(7, "qq-old")] := by
  refine ⟨by decide, by decide, by decide⟩

/-- C9 as amended, at a concrete input: a GitHub login of a user bound to
`gh-old` saves the binding `42`. -/
theorem Callback_existing_binding_witness :
    ∃ u1, savedUsers (Service.Callback Demo.clock (Demo.serviceFor "github" "42")
        (Demo.callback "github") 0).trace = [u1] ∧
      binding u1 "github" = "42" ∧ u1.id = 7 :=
  Callback_existing_binding Demo.clock (Demo.serviceFor "github" "42") (Demo.callback "github") 0
    (Demo.provider (Demo.aliceInfo "github" "42")) (Demo.aliceInfo "github" "42") Demo.alice
    (Or.inl rfl) (by decide) ⟨⟨⟨rfl, rfl, rfl, rfl, rfl⟩, by decide⟩, rfl, by decide⟩


/-- C10 at a concrete input: a Google login of the stored user 7 at clock
reading 1700000000. -/
theorem Callback_existing_login_witness :
    ∃ (u1 : user.User) (w1 : Nat),
      (Service.Callback Demo.clock (Demo.serviceFor "google" "g-1") (Demo.callback "google")
        0).trace =
        lookupCalls (Demo.callback "google") 0 (Demo.provider (Demo.aliceInfo "google" "g-1"))
            (Demo.aliceInfo "google" "g-1") ++
          [Event.Save Via.appService u1,
           Event.EncodeToken Signer.access (Demo.repo.Save u1 w1).val.id,
           Event.EncodeToken Signer.refresh (Demo.repo.Save u1 w1).val.id] ∧
      u1.id = 7 ∧ u1.lastLogin = { unix := 1700000000, nsec := 0 } :=
  let ⟨u1, w1, h⟩ := Callback_existing_login Demo.clock (Demo.serviceFor "google" "g-1")
    (Demo.callback "google") 0 (Demo.provider (Demo.aliceInfo "google" "g-1"))
    (Demo.aliceInfo "google" "g-1") Demo.alice
    { AccessToken := "access-jwt", RefreshToken := "refresh-jwt" }
    ⟨⟨⟨rfl, rfl, rfl, rfl, rfl⟩, by decide⟩, rfl, by decide⟩ (by decide)
  ⟨u1, w1, h.1, h.2.1, h.2.2.2.2.2.1⟩


/-- A run whose lookup finds no user is the new-user branch after the lookup. -/
theorem Callback_eq_loginNew {W : Type} (now : Clock W) (s : Service W)
    (cmd : CallbackCommand) (w : W) (prov : domainauth.OAuth2Provider W)
    (info : domainauth.OAuth2UserInfo) (h : FindsNone s cmd w prov info) :
    Service.Callback now s cmd w =
      loginNew now s cmd.Provider info (lookupCalls cmd w prov info)
        (lookup s cmd w prov info).world := by
  obtain ⟨⟨hReach, hEmail⟩, hVal, hErr⟩ := h
  rw [Callback_eq_reconcile now s cmd w prov info hReach]
  unfold lookup at hVal hErr
  unfold reconcile
  simp only [user.NewEmail, hEmail, if_false]
  rw [hVal]
  cases hE : (s.userRepo.FindByEmail { value := info.email } (worldAtReconcile cmd w prov)).err with
  | none => simp [lookupCalls, lookup]
  | some err => simp [hErr err hE, lookupCalls, lookup]

/-- A name that passes `ValidateUserName` is not empty. -/
theorem ValidateUserName_ne_empty (name : String) (h : user.ValidateUserName name = none) :
    name ≠ "" := by
  intro hn
  subst hn
  simp [user.ValidateUserName] at h
  revert h
  decide


/-- C12: the error a post-creation hook returns has no influence on `Callback`.
Two hooks that leave the same world give the same run (outcome, calls and
world), whatever errors they return; and a nil hook gives the same outcome,
tokens included, as a hook that fails with any error `e` (or returns nil): a
hook failure never turns a login into a failure. -/
theorem Callback_hook_error_ignored {W : Type} (now : Clock W) (s : Service W)
    (cmd : CallbackCommand) (w : W) (h1 h2 : Nat → W → Ret W Unit) (e : Option GoError)
    (hw : ∀ userID w0, (h1 userID w0).world = (h2 userID w0).world) :
    Service.Callback now (withHook s (some h1)) cmd w =
      Service.Callback now (withHook s (some h2)) cmd w ∧
    (Service.Callback now (withHook s none) cmd w).out =
      (Service.Callback now
        (withHook s (some (fun _ w0 => { val := (), err := e, world := w0 }))) cmd w).out := by
  constructor
  · simp only [Service.Callback, reconcile, loginExisting, loginNew, withHook, issueTokens, hw]
  · have hNew : ∀ p info tr w0,
        (loginNew now (withHook s none) p info tr w0).out =
        (loginNew now
          (withHook s (some (fun _ w0 => { val := (), err := e, world := w0 }))) p info tr
          w0).out := by
      intro p info tr w0
      simp only [loginNew, withHook]
      split
      · rfl
      · rfl
      · split
        · rfl
        · simp only [issueTokens]
          split <;> rfl
    have hAuth : ∀ hk, (withHook s hk).authService = s.authService := fun _ => rfl
    have hReg : ∀ hk, (withHook s hk).oauth2Providers = s.oauth2Providers := fun _ => rfl
    have hRepo : ∀ hk, (withHook s hk).userRepo = s.userRepo := fun _ => rfl
    simp only [Service.Callback, reconcile, hAuth, hReg, hRepo]
    split
    · rfl
    · split
      · rfl
      · split
        · rfl
        · split
          · rfl
          · split
            · rfl
            · split
              · rfl
              · split
                · rfl
                · split
                  · simp only [loginExisting, issueTokens, withHook]
                  · exact hNew _ _ _ _

end appauth

/-! ### User names -/

namespace user

/-- Characters are ordered by their code points. -/
theorem char_le_iff (c d : Char) : c ≤ d ↔ c.val.toNat ≤ d.val.toNat := Iff.rfl

/-- What the character class says, as a proposition. -/
theorem userNameChar_iff (c : Char) :
    userNameChar c = true ↔
      (('a' ≤ c ∧ c ≤ 'z') ∨ ('A' ≤ c ∧ c ≤ 'Z') ∨ ('0' ≤ c ∧ c ≤ '9') ∨ c = '_' ∨ c = '-') := by
  simp only [userNameChar, Bool.or_eq_true, Bool.and_eq_true, decide_eq_true_eq, beq_iff_eq]
  tauto

/-- A character of the class is an ASCII character. -/
theorem userNameChar_bound (c : Char) (h : userNameChar c = true) : c.val.toNat ≤ 127 := by
  simp only [userNameChar, Bool.or_eq_true, Bool.and_eq_true, decide_eq_true_eq, beq_iff_eq,
    char_le_iff] at h
  rcases h with (((h | h) | h) | h) | h
  · have : ('z' : Char).val.toNat = 122 := rfl
    omega
  · have : ('Z' : Char).val.toNat = 90 := rfl
    omega
  · have : ('9' : Char).val.toNat = 57 := rfl
    omega
  · subst h; decide
  · subst h; decide

/-- An ASCII character takes one byte in UTF-8. -/
theorem utf8Size_of_bound (c : Char) (h : c.val.toNat ≤ 127) : c.utf8Size = 1 := by
  unfold Char.utf8Size
  have : c.val ≤ UInt32.ofNatCore 127 (by decide) := h
  simp only [this, if_true]

/-- For a text over the class, the byte length is the number of characters. -/
theorem utf8Len_of_all (l : List Char) (h : l.all userNameChar = true) :
    String.utf8Len l = l.length := by
  induction l with
  | nil => rfl
  | cons c cs ih =>
    simp only [List.all_cons, Bool.and_eq_true] at h
    simp [String.utf8Len_cons, ih h.2, utf8Size_of_bound c (userNameChar_bound c h.1)]

/-- `ValidateUserName` accepts exactly the texts of 3 to 20 characters over the
class. -/
theorem ValidateUserName_eq_none_iff (name : String) :
    ValidateUserName name = none ↔
      (3 ≤ name.length ∧ name.length ≤ 20 ∧ name.data.all userNameChar = true) := by
  obtain ⟨l⟩ := name
  simp only [ValidateUserName, matchUserNamePattern, String.utf8ByteSize_mk, String.length]
  by_cases hall : l.all userNameChar = true
  · rw [utf8Len_of_all l hall]
    by_cases hlen : l.length < 3 ∨ l.length > 20
    · simp only [hlen, if_true]
      constructor
      · intro h; cases h
      · intro h; omega
    · have hne : l.isEmpty = false := by
        cases l with
        | nil => simp at hlen
        | cons c cs => rfl
      simp only [hlen, if_false, hne, hall]
      constructor
      · intro _; exact ⟨by omega, by omega, trivial⟩
      · intro _; rfl
  · constructor
    · intro h
      split at h
      · cases h
      · split at h
        · cases h
        · rename_i hm
          simp at hm
          exact absurd (List.all_eq_true.mpr hm.2) hall
    · intro h; exact absurd h.2.2 hall

/-- Every error of `ValidateUserName` wraps `ErrInvalidUserName`. -/
theorem ValidateUserName_error (name : String) :
    (ValidateUserName name).all (fun e => errorsIs e ErrInvalidUserName) = true := by
  unfold ValidateUserName
  split
  · rfl
  · split <;> rfl

/-- C14: `ValidateUserName` returns nil exactly for the names of 3 to 20
characters that are all ASCII letters, ASCII digits, `_` or `-` (for such a
name the byte length that the code measures is the number of characters);
every error it returns wraps `ErrInvalidUserName`. -/
theorem ValidateUserName_spec (name : String) :
    (ValidateUserName name = none ↔
      (3 ≤ name.length ∧ name.length ≤ 20 ∧
        ∀ c ∈ name.data, (('a' ≤ c ∧ c ≤ 'z') ∨ ('A' ≤ c ∧ c ≤ 'Z') ∨ ('0' ≤ c ∧ c ≤ '9') ∨
          c = '_' ∨ c = '-'))) ∧
    (ValidateUserName name).all (fun e => errorsIs e ErrInvalidUserName) = true := by
  refine ⟨?_, ValidateUserName_error name⟩
  rw [ValidateUserName_eq_none_iff, List.all_eq_true]
  simp only [userNameChar_iff]

/-- Each decimal digit renders as a character of the class that is a digit. -/
theorem digitChar_digit (d : Nat) (h : d < 10) :
    '0' ≤ Nat.digitChar d ∧ Nat.digitChar d ≤ '9' := by
  interval_cases d <;> decide

/-- The digit loop of `Nat.repr` only produces decimal digits. -/
theorem toDigitsCore_digits (fuel : Nat) : ∀ (n : Nat) (ds : List Char),
    (∀ c ∈ ds, '0' ≤ c ∧ c ≤ '9') →
    ∀ c ∈ Nat.toDigitsCore 10 fuel n ds, '0' ≤ c ∧ c ≤ '9' := by
  induction fuel with
  | zero => intro n ds h; simpa [Nat.toDigitsCore] using h
  | succ f ih =>
    intro n ds h
    have hd := digitChar_digit (n % 10) (Nat.mod_lt _ (by decide))
    have hds : ∀ c ∈ Nat.digitChar (n % 10) :: ds, '0' ≤ c ∧ c ≤ '9' := by
      intro c hc
      rcases List.mem_cons.mp hc with hc | hc
      · subst hc; exact hd
      · exact h c hc
    simp only [Nat.toDigitsCore]
    split
    · exact hds
    · exact ih _ _ hds

/-- The decimal rendering of a natural number consists of decimal digits. -/
theorem repr_digits (n : Nat) : ∀ c ∈ (Nat.repr n).data, '0' ≤ c ∧ c ≤ '9' := by
  simp only [Nat.repr, Nat.toDigits, List.asString]
  exact toDigitsCore_digits _ _ _ (by simp)

end user

namespace appauth

/-- C13: when the reported name fails `ValidateUserName` and the clock reads
Unix time `t` with `0 ≤ t < 10 ^ 16`, the user name `Callback` hands to
`CreateUser` is `User` followed by the decimal rendering of `t`, which
consists of digits only, and that name passes `ValidateUserName`. -/
theorem chooseUserName_fallback {W : Type} (now : Clock W) (info : domainauth.OAuth2UserInfo)
    (w : W) (t : Nat) (hBad : user.ValidateUserName info.name ≠ none)
    (hNow : (now w).1.unix = (t : Int)) (hBound : t < 10 ^ 16) :
    (chooseUserName now info w).1 = "User" ++ Nat.repr t ∧
    (∀ c ∈ (Nat.repr t).data, '0' ≤ c ∧ c ≤ '9') ∧
    user.ValidateUserName (chooseUserName now info w).1 = none := by
  have hName : (chooseUserName now info w).1 = "User" ++ Nat.repr t := by
    unfold chooseUserName
    split
    · simp only [hNow]
      rfl
    · rename_i h
      exact absurd h hBad
  refine ⟨hName, user.repr_digits t, ?_⟩
  rw [hName, user.ValidateUserName_eq_none_iff]
  have hlen : (Nat.repr t).length ≤ 16 := Nat.repr_length t 16 (by decide) hBound
  have hdata : ("User" ++ Nat.repr t).data = ['U', 's', 'e', 'r'] ++ (Nat.repr t).data := rfl
  have hl : ("User" ++ Nat.repr t).length = 4 + (Nat.repr t).length := by
    show ("User" ++ Nat.repr t).data.length = 4 + (Nat.repr t).data.length
    rw [hdata, List.length_append]
    rfl
  refine ⟨by omega, by omega, ?_⟩
  rw [hdata, List.all_append]
  simp only [Bool.and_eq_true, List.all_eq_true]
  refine ⟨by decide, ?_⟩
  intro c hc
  exact (user.userNameChar_iff c).mpr (Or.inr (Or.inr (Or.inl (user.repr_digits t c hc))))

end appauth

/-! ### The user aggregate -/

namespace user

/-- The valid permissions are the three keys of the level map. -/
theorem Permission.IsValid_iff (p : Permission) :
    Permission.IsValid p = true ↔ (p = "reader" ∨ p = "creator" ∨ p = "admin") := by
  unfold Permission.IsValid PermissionLevelMapping PermissionReader PermissionCreator
    PermissionAdmin
  by_cases h1 : p = "reader"
  · simp [h1]
  · by_cases h2 : p = "creator"
    · simp [h2]
    · by_cases h3 : p = "admin"
      · simp [h3]
      · simp [h1, h2, h3]

/-- A user made by `NewUser` has a non-empty name and a valid permission. -/
theorem NewUser_ok {W : Type} (now : Clock W) (name : String) (email : Email) (avatar : String)
    (permission : Permission) (w w2 : W) (u : User)
    (h : NewUser now name email avatar permission w = (Except.ok u, w2)) :
    u.name ≠ "" ∧ Permission.IsValid u.permission = true := by
  unfold NewUser at h
  split at h
  · simp at h
  · split at h
    · simp at h
    · rename_i hn hp
      simp only [Prod.mk.injEq, Except.ok.injEq] at h
      obtain ⟨hu, _⟩ := h
      subst hu
      exact ⟨hn, by simpa using hp⟩

/-- One mutating call keeps the name non-empty and the permission valid. -/
theorem Mutation.apply_keeps {W : Type} (now : Clock W) (m : Mutation) (u : User) (w : W)
    (h : u.name ≠ "" ∧ Permission.IsValid u.permission = true) :
    (Mutation.apply now m u w).val.name ≠ "" ∧
    Permission.IsValid (Mutation.apply now m u w).val.permission = true := by
  cases m with
  | UpdateName name =>
    simp only [Mutation.apply, User.UpdateName]
    split
    · exact h
    · rename_i hn
      exact ⟨hn, h.2⟩
  | UpdateAvatar avatar => exact h
  | UpdatePermission permission =>
    simp only [Mutation.apply, User.UpdatePermission]
    split
    · exact h
    · rename_i hp
      exact ⟨h.1, by simpa using hp⟩
  | RecordLogin => exact h
  | BindGithub id =>
    simp only [Mutation.apply, User.BindGithub]
    split <;> exact h
  | BindQQ id =>
    simp only [Mutation.apply, User.BindQQ]
    split <;> exact h
  | BindGoogle id =>
    simp only [Mutation.apply, User.BindGoogle]
    split <;> exact h

/-- Any sequence of mutating calls keeps the name non-empty and the permission
valid. -/
theorem Mutation.applyAll_keeps {W : Type} (now : Clock W) (ops : List Mutation) :
    ∀ (u : User) (w : W), (u.name ≠ "" ∧ Permission.IsValid u.permission = true) →
      (Mutation.applyAll now ops u w).1.name ≠ "" ∧
      Permission.IsValid (Mutation.applyAll now ops u w).1.permission = true := by
  induction ops with
  | nil => intro u w h; exact h
  | cons m rest ih =>
    intro u w h
    exact ih _ _ (Mutation.apply_keeps now m u w h)

/-- C15 as amended: a user made by `NewUser` and then put through any sequence
of `UpdateName`, `UpdateAvatar`, `UpdatePermission`, `RecordLogin` and bind
calls, successful or failing, always has a non-empty name. -/
theorem User_name_nonempty {W : Type} (now : Clock W) (name : String) (email : Email)
    (avatar : String) (permission : Permission) (w w2 : W) (u : User)
    (h : NewUser now name email avatar permission w = (Except.ok u, w2))
    (ops : List Mutation) (w3 : W) :
    (Mutation.applyAll now ops u w3).1.name ≠ "" :=
  (Mutation.applyAll_keeps now ops u w3 (NewUser_ok now name email avatar permission w w2 u h)).1

/-- C16: a user made by `NewUser` and then put through any sequence of
`UpdateName`, `UpdateAvatar`, `UpdatePermission`, `RecordLogin` and bind calls,
successful or failing, always has a valid permission, that is one of reader,
creator, admin; and an `UpdatePermission` with an invalid permission returns
an error and leaves the user, its permission included, as it was. -/
theorem User_permission_valid {W : Type} (now : Clock W) (name : String) (email : Email)
    (avatar : String) (permission : Permission) (w w2 : W) (u : User)
    (h : NewUser now name email avatar permission w = (Except.ok u, w2))
    (ops : List Mutation) (w3 : W) :
    Permission.IsValid (Mutation.applyAll now ops u w3).1.permission = true ∧
    ((Mutation.applyAll now ops u w3).1.permission = PermissionReader ∨
     (Mutation.applyAll now ops u w3).1.permission = PermissionCreator ∨
     (Mutation.applyAll now ops u w3).1.permission = PermissionAdmin) ∧
    ∀ (v : User) (q : Permission) (w4 : W), Permission.IsValid q = false →
      (User.UpdatePermission now v q w4).err ≠ none ∧
      (User.UpdatePermission now v q w4).val = v ∧
      (User.UpdatePermission now v q w4).world = w4 := by
  have hk := (Mutation.applyAll_keeps now ops u w3
    (NewUser_ok now name email avatar permission w w2 u h)).2
  refine ⟨hk, (Permission.IsValid_iff _).mp hk, ?_⟩
  intro v q w4 hq
  simp [User.UpdatePermission, hq]

/-- C17: the levels of reader, creator and admin are 1, 2 and 3, and
`p.HasPermission(r)` is true exactly when the level of `p` is at least the
level of `r` (for these three and for every other permission string). -/
theorem HasPermission_iff_level (p r : Permission) :
    Permission.Level PermissionReader = 1 ∧ Permission.Level PermissionCreator = 2 ∧
    Permission.Level PermissionAdmin = 3 ∧
    (Permission.HasPermission p r = true ↔ Permission.Level p ≥ Permission.Level r) := by
  refine ⟨by decide, by decide, by decide, ?_⟩
  simp [Permission.HasPermission]

/-- C18: on the valid permissions `HasPermission` is a total order: reflexive,
transitive, antisymmetric and total. -/
theorem HasPermission_total_order (p q r : Permission)
    (hp : Permission.IsValid p = true) (hq : Permission.IsValid q = true)
    (hr : Permission.IsValid r = true) :
    Permission.HasPermission p p = true ∧
    (Permission.HasPermission p q = true → Permission.HasPermission q r = true →
      Permission.HasPermission p r = true) ∧
    (Permission.HasPermission p q = true → Permission.HasPermission q p = true → p = q) ∧
    (Permission.HasPermission p q = true ∨ Permission.HasPermission q p = true) := by
  rcases (Permission.IsValid_iff p).mp hp with h | h | h <;>
  rcases (Permission.IsValid_iff q).mp hq with h2 | h2 | h2 <;>
  rcases (Permission.IsValid_iff r).mp hr with h3 | h3 | h3 <;>
  subst h <;> subst h2 <;> subst h3 <;> decide

/-- C19: for each of `BindGithub`, `BindQQ`, `BindGoogle` and non-empty
identifiers `a`, `b`: after one binding of `a` the provider's bound identifier
is `a`; after binding `a` twice it is still `a`; after binding `a` then `b` it
is `b`; and the two calls change neither the bindings of the other two
providers nor identifier, name, email, avatar or permission. -/
theorem Bind_idempotent_last_write_wins {W : Type} (now : Clock W) (u : User) (a b : String)
    (w : W) (ha : a ≠ "") (hb : b ≠ "") :
    ((User.BindGithub now u a w).val.githubBindID = a ∧
     (bindTwice (User.BindGithub now) u a a w).githubBindID = a ∧
     (bindTwice (User.BindGithub now) u a b w).githubBindID = b ∧
     (bindTwice (User.BindGithub now) u a b w).qqBindID = u.qqBindID ∧
     (bindTwice (User.BindGithub now) u a b w).googleBindID = u.googleBindID ∧
     SameIdentity u (bindTwice (User.BindGithub now) u a b w)) ∧
    ((User.BindQQ now u a w).val.qqBindID = a ∧
     (bindTwice (User.BindQQ now) u a a w).qqBindID = a ∧
     (bindTwice (User.BindQQ now) u a b w).qqBindID = b ∧
     (bindTwice (User.BindQQ now) u a b w).githubBindID = u.githubBindID ∧
     (bindTwice (User.BindQQ now) u a b w).googleBindID = u.googleBindID ∧
     SameIdentity u (bindTwice (User.BindQQ now) u a b w)) ∧
    ((User.BindGoogle now u a w).val.googleBindID = a ∧
     (bindTwice (User.BindGoogle now) u a a w).googleBindID = a ∧
     (bindTwice (User.BindGoogle now) u a b w).googleBindID = b ∧
     (bindTwice (User.BindGoogle now) u a b w).githubBindID = u.githubBindID ∧
     (bindTwice (User.BindGoogle now) u a b w).qqBindID = u.qqBindID ∧
     SameIdentity u (bindTwice (User.BindGoogle now) u a b w)) := by
  simp [bindTwice, User.BindGithub, User.BindQQ, User.BindGoogle, SameIdentity, ha, hb]

/-- C15 as stated fails: `NewUser` accepts the one-letter name `x`, and
`UpdateName` replaces the valid name `alice` by `no`; both names are rejected
by `ValidateUserName`. -/
theorem User_name_counterexample :
    ((NewUser Demo.clock "x" { value := "x@example.com" } "" PermissionReader 0).1.toOption.map
        (fun u => u.name) = some "x" ∧
      ValidateUserName "x" ≠ none) ∧
    ((User.UpdateName Demo.clock Demo.alice "no" 0).err = none ∧
      (User.UpdateName Demo.clock Demo.alice "no" 0).val.name = "no" ∧
      ValidateUserName Demo.alice.name = none ∧
      ValidateUserName "no" ≠ none) := by
  refine ⟨⟨by decide, by decide⟩, by decide, by decide, by decide, by decide⟩

/-- C15 as amended, at a concrete input: a fresh user after a rejected empty
rename, a rename to `no` and a login. -/
theorem User_name_nonempty_witness :
    (Mutation.applyAll Demo.clock
      [Mutation.UpdateName "", Mutation.UpdateName "no", Mutation.RecordLogin]
      { id := 0, name := "x", email := { value := "x@example.com" }, avatar := "",
        permission := PermissionReader,
        lastLogin := { unix := 1700000000, nsec := 0 },
        createdAt := { unix := 1700000000, nsec := 0 },
        updatedAt := { unix := 1700000000, nsec := 0 },
        githubBindID := "", qqBindID := "", googleBindID := "" } 1).1.name ≠ "" :=
  User_name_nonempty Demo.clock "x" { value := "x@example.com" } "" PermissionReader 0 1 _ rfl
    [Mutation.UpdateName "", Mutation.UpdateName "no", Mutation.RecordLogin] 1

/-- C16 at a concrete input: a fresh reader after a rejected change to `root`, a
change to `admin` and a login. -/
theorem User_permission_valid_witness :
    Permission.IsValid (Mutation.applyAll Demo.clock
      [Mutation.UpdatePermission "root", Mutation.UpdatePermission "admin",
       Mutation.RecordLogin]
      { id := 0, name := "alice", email := { value := "a@example.com" }, avatar := "",
        permission := PermissionReader,
        lastLogin := { unix := 1700000000, nsec := 0 },
        createdAt := { unix := 1700000000, nsec := 0 },
        updatedAt := { unix := 1700000000, nsec := 0 },
        githubBindID := "", qqBindID := "", googleBindID := "" } 1).1.permission = true :=
  (User_permission_valid Demo.clock "alice" { value := "a@example.com" } "" PermissionReader
    0 1 _ rfl
    [Mutation.UpdatePermission "root", Mutation.UpdatePermission "admin",
     Mutation.RecordLogin] 1).1

/-- C18 at a concrete input: creator against admin and reader. -/
theorem HasPermission_total_order_witness :
    Permission.HasPermission PermissionCreator PermissionCreator = true ∧
    (Permission.HasPermission PermissionCreator PermissionAdmin = true ∨
      Permission.HasPermission PermissionAdmin PermissionCreator = true) :=
  let h := HasPermission_total_order PermissionCreator PermissionAdmin PermissionReader
    (by decide) (by decide) (by decide)
  ⟨h.1, h.2.2.2⟩

/-- C19 at a concrete input: the stored user bound to `gh-old` is bound to `a`
twice, and to `a` then `b`. -/
theorem Bind_idempotent_last_write_wins_witness :
    (bindTwice (User.BindGithub Demo.clock) Demo.alice "a" "a" 0).githubBindID = "a" ∧
    (bindTwice (User.BindGithub Demo.clock) Demo.alice "a" "b" 0).githubBindID = "b" ∧
    (bindTwice (User.BindGithub Demo.clock) Demo.alice "a" "b" 0).qqBindID = "qq-old" :=
  let h := (Bind_idempotent_last_write_wins Demo.clock Demo.alice "a" "b" 0 (by decide)
    (by decide)).1
  ⟨h.2.1, h.2.2.1, h.2.2.2.1⟩

end user

namespace appauth

/-- C12 at a concrete input: a first GitHub login whose hook fails with `disk
full` runs exactly as with a hook that succeeds, reaches the hook and
succeeds. -/
theorem Callback_hook_error_ignored_witness :
    Service.Callback Demo.clock (Demo.bobService (some Demo.failingHook))
        (Demo.callback "github") 0 =
      Service.Callback Demo.clock (Demo.bobService (some Demo.okHook))
        (Demo.callback "github") 0 ∧
    Event.OnUserCreated 8 ∈ (Service.Callback Demo.clock
      (Demo.bobService (some Demo.failingHook)) (Demo.callback "github") 0).trace ∧
    (Service.Callback Demo.clock (Demo.bobService (some Demo.failingHook))
        (Demo.callback "github") 0).out =
      Outcome.ok { AccessToken := "access-jwt", RefreshToken := "refresh-jwt" } ∧
    (Service.Callback Demo.clock (Demo.bobService none) (Demo.callback "github") 0).out =
      Outcome.ok { AccessToken := "access-jwt", RefreshToken := "refresh-jwt" } :=
  ⟨(Callback_hook_error_ignored Demo.clock
      (Demo.service (Demo.registry "github" (Demo.provider (Demo.bobInfo "github" "99")))
        Demo.repo) (Demo.callback "github") 0 Demo.failingHook Demo.okHook none
      (fun _ _ => rfl)).1, by decide, by decide, by decide⟩

/-- C13 at a concrete input: the reported name `x` at Unix time 1700000000. -/
theorem chooseUserName_fallback_witness :
    (chooseUserName Demo.clock Demo.xInfo 0).1 = "User" ++ Nat.repr 1700000000 ∧
    user.ValidateUserName (chooseUserName Demo.clock Demo.xInfo 0).1 = none ∧
    (savedUsers (Service.Callback Demo.clock
      (Demo.service (Demo.registry "github" (Demo.provider Demo.xInfo)) Demo.repo)
      (Demo.callback "github") 0).trace).map (fun u => u.name)
      = ["User1700000000", "User1700000000"] :=
  let h := chooseUserName_fallback Demo.clock Demo.xInfo 0 1700000000 (by decide) rfl
    (by decide)
  ⟨h.1, h.2.2, by decide⟩

/-- C21: `GenerateTokens` for a user identifier fails exactly when the access
signer's `EncodeToken` fails or, after it, the refresh signer's does, and the
error it returns is that signer's error. On success the access token of the
pair is the access signer's output and the refresh token the refresh signer's
output, each signer having been called once for the same identifier. It never
panics, and the token step of `Callback` turns every such failure into
`ErrInternalError`. -/
theorem GenerateTokens_spec {W : Type} (now : Clock W) (app : Service W) (u : user.User)
    (tr : List Event) (w : W) :
    ((∃ e, (domainauth.Service.GenerateTokens now app.authService u.id w).out =
        Outcome.error e) ↔
      ((app.authService.accessTokenSigner.EncodeToken u.id w).err ≠ none ∨
       (app.authService.refreshTokenSigner.EncodeToken u.id
         (app.authService.accessTokenSigner.EncodeToken u.id w).world).err ≠ none)) ∧
    (∀ e, (domainauth.Service.GenerateTokens now app.authService u.id w).out =
        Outcome.error e →
      ((app.authService.accessTokenSigner.EncodeToken u.id w).err = some e ∨
       ((app.authService.accessTokenSigner.EncodeToken u.id w).err = none ∧
        (app.authService.refreshTokenSigner.EncodeToken u.id
          (app.authService.accessTokenSigner.EncodeToken u.id w).world).err = some e))) ∧
    (∀ t, (domainauth.Service.GenerateTokens now app.authService u.id w).out = Outcome.ok t →
      t.accessToken = (app.authService.accessTokenSigner.EncodeToken u.id w).val ∧
      t.refreshToken = (app.authService.refreshTokenSigner.EncodeToken u.id
        (app.authService.accessTokenSigner.EncodeToken u.id w).world).val ∧
      (domainauth.Service.GenerateTokens now app.authService u.id w).trace =
        [Event.EncodeToken Signer.access u.id, Event.EncodeToken Signer.refresh u.id]) ∧
    (domainauth.Service.GenerateTokens now app.authService u.id w).out ≠ Outcome.panic ∧
    ((∃ e, (domainauth.Service.GenerateTokens now app.authService u.id w).out =
        Outcome.error e) →
      (issueTokens now app u tr w).out = Outcome.error ErrInternalError) := by
  refine ⟨?_, ?_, fun t ht =>
    ⟨(GenerateTokens_ok now app.authService u.id w t ht).2.1,
     (GenerateTokens_ok now app.authService u.id w t ht).2.2,
     (GenerateTokens_ok now app.authService u.id w t ht).1⟩, ?_, ?_⟩
  · cases hA : (app.authService.accessTokenSigner.EncodeToken u.id w).err with
    | some e => simp [domainauth.Service.GenerateTokens, hA]
    | none =>
      cases hR : (app.authService.refreshTokenSigner.EncodeToken u.id
          (app.authService.accessTokenSigner.EncodeToken u.id w).world).err with
      | some e => simp [domainauth.Service.GenerateTokens, hA, hR]
      | none => simp [domainauth.Service.GenerateTokens, hA, hR]
  · intro e he
    cases hA : (app.authService.accessTokenSigner.EncodeToken u.id w).err with
    | some e2 =>
      simp [domainauth.Service.GenerateTokens, hA] at he
      exact Or.inl (by rw [he])
    | none =>
      cases hR : (app.authService.refreshTokenSigner.EncodeToken u.id
          (app.authService.accessTokenSigner.EncodeToken u.id w).world).err with
      | some e2 =>
        simp [domainauth.Service.GenerateTokens, hA, hR] at he
        exact Or.inr ⟨rfl, by rw [he]⟩
      | none => simp [domainauth.Service.GenerateTokens, hA, hR] at he
  · unfold domainauth.Service.GenerateTokens
    dsimp only
    split
    · simp
    · split <;> simp
  · rintro ⟨e, he⟩
    simp [issueTokens, he]

end appauth

namespace domainauth

/-- C22: `NewOAuth2UserInfo` fails exactly when the identifier is empty or the
provider is not one of `github`, `google`, `qq`; it succeeds exactly in the
other case, and then the accessors `ID`, `Name`, `Email`, `Avatar` and
`Provider` return the arguments of the constructor. -/
theorem NewOAuth2UserInfo_spec (id name email avatar : String) (p : Provider) :
    ((∃ e, NewOAuth2UserInfo id name email avatar p = Except.error e) ↔
      (id = "" ∨ ¬ (p = "github" ∨ p = "google" ∨ p = "qq"))) ∧
    ((∃ o, NewOAuth2UserInfo id name email avatar p = Except.ok o) ↔
      (id ≠ "" ∧ (p = "github" ∨ p = "google" ∨ p = "qq"))) ∧
    (∀ o, NewOAuth2UserInfo id name email avatar p = Except.ok o →
      o.ID = id ∧ o.Name = name ∧ o.Email = email ∧ o.Avatar = avatar ∧ o.Provider = p) := by
  have hv : Provider.IsValid p = true ↔ (p = "github" ∨ p = "google" ∨ p = "qq") := by
    simp [Provider.IsValid, ProviderGithub, ProviderQQ, ProviderGoogle]
    tauto
  by_cases hid : id = ""
  · simp [NewOAuth2UserInfo, hid]
  · by_cases hp : Provider.IsValid p = true
    · have hp2 := hv.mp hp
      simp only [NewOAuth2UserInfo, hid, if_false, hp, Bool.not_true, Bool.false_eq_true]
      refine ⟨by simp [hp2, hid], by simp [hp2, hid], ?_⟩
      intro o ho
      simp only [Except.ok.injEq] at ho
      subst ho
      exact ⟨rfl, rfl, rfl, rfl, rfl⟩
    · have hp2 : ¬ (p = "github" ∨ p = "google" ∨ p = "qq") := fun h => hp (hv.mpr h)
      simp [NewOAuth2UserInfo, hid, hp, hp2]

end domainauth

namespace handler

/-- C24: `HandleRefreshToken` first decodes the presented token with the refresh
signer and with no other signer. If that fails it answers `ErrUnauthorized`
and the decode is its only call. Otherwise it calls the access signer's
`EncodeToken` once, for the decoded identifier: it answers `ErrInternalError`
if that fails, and else the access token that call returned. -/
theorem HandleRefreshToken_spec {W : Type} (h : TokenHandler W) (body : RefreshTokenBody)
    (w : W) :
    ((h.refreshTokenSigner.DecodeToken body.RefreshToken w).err ≠ none ∧
      (TokenHandler.HandleRefreshToken h body w).out = Outcome.error ErrUnauthorized ∧
      (TokenHandler.HandleRefreshToken h body w).trace =
        [Event.DecodeToken Signer.refresh body.RefreshToken]) ∨
    ((h.refreshTokenSigner.DecodeToken body.RefreshToken w).err = none ∧
      (h.accessTokenSigner.EncodeToken
        (h.refreshTokenSigner.DecodeToken body.RefreshToken w).val
        (h.refreshTokenSigner.DecodeToken body.RefreshToken w).world).err ≠ none ∧
      (TokenHandler.HandleRefreshToken h body w).out = Outcome.error ErrInternalError ∧
      (TokenHandler.HandleRefreshToken h body w).trace =
        [Event.DecodeToken Signer.refresh body.RefreshToken,
         Event.EncodeToken Signer.access
           (h.refreshTokenSigner.DecodeToken body.RefreshToken w).val]) ∨
    ((h.refreshTokenSigner.DecodeToken body.RefreshToken w).err = none ∧
      (h.accessTokenSigner.EncodeToken
        (h.refreshTokenSigner.DecodeToken body.RefreshToken w).val
        (h.refreshTokenSigner.DecodeToken body.RefreshToken w).world).err = none ∧
      (TokenHandler.HandleRefreshToken h body w).out = Outcome.ok
        { AccessToken := (h.accessTokenSigner.EncodeToken
            (h.refreshTokenSigner.DecodeToken body.RefreshToken w).val
            (h.refreshTokenSigner.DecodeToken body.RefreshToken w).world).val } ∧
      (TokenHandler.HandleRefreshToken h body w).trace =
        [Event.DecodeToken Signer.refresh body.RefreshToken,
         Event.EncodeToken Signer.access
           (h.refreshTokenSigner.DecodeToken body.RefreshToken w).val]) := by
  cases hD : (h.refreshTokenSigner.DecodeToken body.RefreshToken w).err with
  | some e => simp [TokenHandler.HandleRefreshToken, hD]
  | none =>
    cases hE : (h.accessTokenSigner.EncodeToken
        (h.refreshTokenSigner.DecodeToken body.RefreshToken w).val
        (h.refreshTokenSigner.DecodeToken body.RefreshToken w).world).err with
    | some e => simp [TokenHandler.HandleRefreshToken, hD, hE]
    | none => simp [TokenHandler.HandleRefreshToken, hD, hE]

end handler

namespace user

/-- The level of a permission is 0 when it is not valid and 1, 2 or 3 when it
is. -/
theorem Permission.Level_cases (p : Permission) :
    (Permission.IsValid p = false ∧ Permission.Level p = 0) ∨
    (Permission.IsValid p = true ∧
      (Permission.Level p = 1 ∨ Permission.Level p = 2 ∨ Permission.Level p = 3)) := by
  unfold Permission.IsValid Permission.Level PermissionLevelMapping
  split
  · simp
  · split
    · simp
    · split <;> simp

/-- C25: a required permission that is not one of reader, creator, admin has
level 0, so every permission, valid or not, passes `HasPermission` against it;
and a user whose own permission is not one of the three fails `HasPermission`
against every valid requirement. -/
theorem HasPermission_unknown (p r : Permission) (u : User) :
    (Permission.IsValid r = false →
      Permission.Level r = 0 ∧ Permission.HasPermission p r = true) ∧
    (Permission.IsValid u.permission = false → Permission.IsValid r = true →
      User.HasPermission u r = false) := by
  constructor
  · intro hr
    rcases Permission.Level_cases r with ⟨_, h0⟩ | ⟨h1, _⟩
    · refine ⟨h0, ?_⟩
      rcases Permission.Level_cases p with ⟨_, hp⟩ | ⟨_, hp | hp | hp⟩ <;>
        simp [Permission.HasPermission, h0, hp]
    · rw [hr] at h1; cases h1
  · intro hu hr
    rcases Permission.Level_cases u.permission with ⟨_, h0⟩ | ⟨h1, _⟩
    · rcases Permission.Level_cases r with ⟨h2, _⟩ | ⟨_, hl | hl | hl⟩
      · rw [hr] at h2; cases h2
      all_goals simp [User.HasPermission, Permission.HasPermission, h0, hl]
    · rw [hu] at h1; cases h1

end user

/-! ### The GitHub provider -/

namespace oauth2

/-- The digit loop of `Nat.repr` never empties a non-empty accumulator. -/
theorem toDigitsCore_ne_nil (fuel : Nat) : ∀ (n : Nat) (ds : List Char),
    ds ≠ [] → Nat.toDigitsCore 10 fuel n ds ≠ [] := by
  induction fuel with
  | zero => intro n ds h; simpa [Nat.toDigitsCore] using h
  | succ f ih =>
    intro n ds _
    simp only [Nat.toDigitsCore]
    split
    · exact List.cons_ne_nil _ _
    · exact ih _ _ (List.cons_ne_nil _ _)

/-- The decimal rendering of an integer is never the empty string. -/
theorem sprintfDecimal_ne_empty (id : Int) : sprintfDecimal id ≠ "" := by
  intro h
  have hd := congrArg String.data h
  cases id with
  | ofNat n =>
    simp only [sprintfDecimal, FormatInt, Nat.repr, Nat.toDigits, List.asString,
      Nat.toDigitsCore] at hd
    revert hd
    split
    · exact List.cons_ne_nil _ _
    · exact toDigitsCore_ne_nil _ _ _ (List.cons_ne_nil _ _)
  | negSucc n =>
    have hdata : (sprintfDecimal (Int.negSucc n)).data = '-' :: (Nat.repr (n + 1)).data := rfl
    rw [hdata] at hd
    exact List.cons_ne_nil _ _ hd

/-- The loop over the addresses picks the first one flagged primary. -/
theorem selectPrimaryEmail_eq (userInfo : GithubUserInfo) (emails : List GithubEmail) :
    selectPrimaryEmail userInfo emails =
      match emails.find? (fun e => e.Primary) with
      | some e => { userInfo with Email := e.Email }
      | none => userInfo := by
  induction emails with
  | nil => rfl
  | cons e rest ih =>
    by_cases hp : e.Primary = true
    · simp [selectPrimaryEmail, List.find?, hp]
    · simp [selectPrimaryEmail, List.find?, hp, ih]

/-- The conversion to the domain model always succeeds, with the decimal
rendering of the numeric identifier as external identifier. -/
theorem toOAuth2UserInfo_ok (userInfo : GithubUserInfo) :
    toOAuth2UserInfo userInfo = Except.ok
      { id := sprintfDecimal userInfo.ID, name := userInfo.Login, email := userInfo.Email,
        avatar := userInfo.AvatarURL, provider := domainauth.ProviderGithub } := by
  have hv : domainauth.Provider.IsValid domainauth.ProviderGithub = true := by decide
  simp [toOAuth2UserInfo, domainauth.NewOAuth2UserInfo, sprintfDecimal_ne_empty, hv]

/-- When both requests succeed and decode, `GetUserInfo` returns the converted
profile with the selected email, and no error. -/
theorem GetUserInfo_of_fetches {W : Type} (client : GithubClient W) (token : OAuth2Token)
    (w : W) (profile : GithubUserInfo) (emails : List GithubEmail)
    (h : Fetches client token w profile emails) :
    (GithubProvider.GetUserInfo client token w).val = some
      { id := sprintfDecimal profile.ID, name := profile.Login,
        email := (selectPrimaryEmail profile emails).Email,
        avatar := profile.AvatarURL, provider := domainauth.ProviderGithub } ∧
    (GithubProvider.GetUserInfo client token w).err = none := by
  obtain ⟨h1, h2, h3, h4⟩ := h
  have hID : ∀ es, (selectPrimaryEmail profile es).ID = profile.ID ∧
      (selectPrimaryEmail profile es).Login = profile.Login ∧
      (selectPrimaryEmail profile es).AvatarURL = profile.AvatarURL := by
    intro es
    induction es with
    | nil => exact ⟨rfl, rfl, rfl⟩
    | cons e rest ih =>
      simp only [selectPrimaryEmail]
      split
      · exact ⟨rfl, rfl, rfl⟩
      · exact ih
  simp only [GithubProvider.GetUserInfo, h1, h2, h3, h4, toOAuth2UserInfo_ok]
  simp [(hID emails).1, (hID emails).2.1, (hID emails).2.2]

/-- C23: when both requests of `GithubProvider.GetUserInfo` succeed and decode,
it returns a user-info without error whose email is the address of the first
entry of the list that is flagged primary, and the email field of the profile
itself, possibly empty, when no entry is flagged. -/
theorem GetUserInfo_primary_email {W : Type} (client : GithubClient W) (token : OAuth2Token)
    (w : W) (profile : GithubUserInfo) (emails : List GithubEmail)
    (h : Fetches client token w profile emails) :
    ∃ info, (GithubProvider.GetUserInfo client token w).val = some info ∧
      (GithubProvider.GetUserInfo client token w).err = none ∧
      info.Email =
        match emails.find? (fun e => e.Primary) with
        | some e => e.Email
        | none => profile.Email := by
  refine ⟨_, (GetUserInfo_of_fetches client token w profile emails h).1,
    (GetUserInfo_of_fetches client token w profile emails h).2, ?_⟩
  show (selectPrimaryEmail profile emails).Email = _
  rw [selectPrimaryEmail_eq]
  cases emails.find? (fun e => e.Primary) <;> rfl

/-- C27: the external identifier of a GitHub profile, the decimal rendering of
its numeric identifier, is never the empty string; so whenever both requests
succeed and decode, `GetUserInfo` returns a user-info with that identifier and
no error, a profile whose identifier is 0 is reported under the identifier
`0`, and the conversion to the domain model succeeds for every profile: the
empty-identifier rejection of `NewOAuth2UserInfo` cannot be reached from
here. -/
theorem GetUserInfo_identifier {W : Type} (client : GithubClient W) (token : OAuth2Token)
    (w : W) (profile : GithubUserInfo) (emails : List GithubEmail)
    (h : Fetches client token w profile emails) :
    sprintfDecimal profile.ID ≠ "" ∧
    (∃ info, (GithubProvider.GetUserInfo client token w).val = some info ∧
      (GithubProvider.GetUserInfo client token w).err = none ∧
      info.ID = sprintfDecimal profile.ID ∧
      (profile.ID = 0 → info.ID = "0")) ∧
    (∀ userInfo : GithubUserInfo, ∃ info, toOAuth2UserInfo userInfo = Except.ok info) := by
  refine ⟨sprintfDecimal_ne_empty _, ⟨_, (GetUserInfo_of_fetches client token w profile emails h).1,
    (GetUserInfo_of_fetches client token w profile emails h).2, rfl, ?_⟩,
    fun userInfo => ⟨_, toOAuth2UserInfo_ok userInfo⟩⟩
  intro h0
  show sprintfDecimal profile.ID = "0"
  rw [h0]
  rfl

end oauth2

/-! ### The two saves of a first login -/

namespace user

/-- A successful `CreateUser` looked the email up once and saved once: a user
with identifier 0, the given name and no binding; it returns that user as the
save left it. -/
theorem CreateUser_ok {W : Type} (now : Clock W) (s : Service W) (name emailStr avatar : String)
    (permission : Permission) (w : W) (u : User)
    (h : (Service.CreateUser now s name emailStr avatar permission w).out = Outcome.ok u) :
    ∃ (u0 : User) (w0 : W),
      (Service.CreateUser now s name emailStr avatar permission w).trace =
        [Event.FindByEmail Via.userService { value := emailStr },
         Event.Save Via.userService u0] ∧
      u0.id = 0 ∧ u0.name = name ∧ u0.githubBindID = "" ∧ u0.qqBindID = "" ∧
      u0.googleBindID = "" ∧
      (s.repo.Save u0 w0).err = none ∧ u = (s.repo.Save u0 w0).val := by
  cases hV : ValidateUserName name with
  | some err => simp [Service.CreateUser, hV] at h
  | none =>
    by_cases hE : emailStr = ""
    · simp [Service.CreateUser, hV, NewEmail, hE] at h
    · cases hF : (s.repo.FindByEmail { value := emailStr } w).val with
      | some found => simp [Service.CreateUser, hV, NewEmail, hE, hF] at h
      | none =>
        have hN : name ≠ "" := appauth.ValidateUserName_ne_empty name hV
        by_cases hP : Permission.IsValid permission = true
        · simp only [Service.CreateUser, hV, NewEmail, hE, if_false, hF, NewUser, hN, hP,
            Bool.not_true, Bool.false_eq_true] at h ⊢
          split at h
          · simp at h
          · rename_i hSave
            simp only [hSave]
            simp only [Outcome.ok.injEq] at h
            exact ⟨_, _, rfl, rfl, rfl, rfl, rfl, rfl, hSave, h.symm⟩
        · simp [Service.CreateUser, hV, NewEmail, hE, hF, NewUser, hN, hP] at h

end user

namespace appauth

/-- C26: in a first-time run in which `CreateUser` succeeds and the save after
the bind statement fails, `Callback` ends with `ErrInternalError`. After the
lookup it has made exactly three calls: the lookup and the save inside
`CreateUser`, that save being of a user with identifier 0 and no binding and
having succeeded, and the failed save of the bound user. The hook is not
called and no token is issued. -/
theorem Callback_second_save_fails {W : Type} (now : Clock W) (s : Service W)
    (cmd : CallbackCommand) (w : W) (prov : domainauth.OAuth2Provider W)
    (info : domainauth.OAuth2UserInfo) (u : user.User) (e : GoError)
    (h : FindsNone s cmd w prov info)
    (hCreate : (createUserCall now s info (lookup s cmd w prov info).world).out = Outcome.ok u)
    (hSave : (saveAfterBind now s cmd.Provider info u
      (createUserCall now s info (lookup s cmd w prov info).world).world).err = some e) :
    ∃ (u0 u1 : user.User) (w0 : W),
      (Service.Callback now s cmd w).out = Outcome.error ErrInternalError ∧
      (Service.Callback now s cmd w).trace =
        lookupCalls cmd w prov info ++
          [Event.FindByEmail Via.userService { value := info.email },
           Event.Save Via.userService u0,
           Event.Save Via.appService u1] ∧
      u0.id = 0 ∧ u0.githubBindID = "" ∧ u0.qqBindID = "" ∧ u0.googleBindID = "" ∧
      (s.userService.repo.Save u0 w0).err = none ∧
      u = (s.userService.repo.Save u0 w0).val ∧
      u1 = (bindThirdParty now cmd.Provider u info.id
        (createUserCall now s info (lookup s cmd w prov info).world).world).1 := by
  rw [Callback_eq_loginNew now s cmd w prov info h]
  obtain ⟨u0, w0, hTr, h0, _, hg, hq, hgo, hS, hu⟩ :=
    user.CreateUser_ok now s.userService _ _ _ _ _ u hCreate
  unfold createUserCall at hCreate hSave
  unfold saveAfterBind at hSave
  refine ⟨u0, _, w0, ?_, ?_, h0, hg, hq, hgo, hS, hu, rfl⟩
  · simp only [loginNew, hCreate, hSave]
  · simp only [loginNew, hCreate, hSave, hTr, createUserCall]
    simp

/-- C26 at a concrete input: the first GitHub login of `bob` over the
repository of the persistence layer, on a table whose insert succeeds with
identifier 8 and whose update fails. The first save inserts the unbound user
with identifier 0, the second is the update of user 8 with the binding. -/
theorem Callback_second_save_fails_witness :
    (∃ (u0 u1 : user.User),
      (Service.Callback Demo.clock Demo.daoService (Demo.callback "github") 0).out =
        Outcome.error ErrInternalError ∧
      (Service.Callback Demo.clock Demo.daoService (Demo.callback "github") 0).trace =
        lookupCalls (Demo.callback "github") 0 (Demo.provider (Demo.bobInfo "github" "99"))
            (Demo.bobInfo "github" "99") ++
          [Event.FindByEmail Via.userService { value := "b@example.com" },
           Event.Save Via.userService u0,
           Event.Save Via.appService u1] ∧
      u0.id = 0 ∧ u0.githubBindID = "") ∧
    (savedUsers (Service.Callback Demo.clock Demo.daoService (Demo.callback "github")
      0).trace).map (fun u => (u.id, u.githubBindID)) = [(0, ""), (8, "99")] :=
  And.intro
    (let ⟨u0, u1, _, h⟩ := Callback_second_save_fails Demo.clock Demo.daoService
      (Demo.callback "github") 0 (Demo.provider (Demo.bobInfo "github" "99"))
      (Demo.bobInfo "github" "99")
      { id := 8, name := "bob", email := { value := "b@example.com" },
        avatar := "https://img.example/bob", permission := user.PermissionReader,
        lastLogin := { unix := 1700000000, nsec := 0 },
        createdAt := { unix := 1700000000, nsec := 0 },
        updatedAt := { unix := 1700000000, nsec := 0 },
        githubBindID := "", qqBindID := "", googleBindID := "" }
      (GoError.errorsNew "deadlock detected")
      ⟨⟨⟨rfl, rfl, rfl, rfl, rfl⟩, by decide⟩, rfl, by decide⟩ rfl rfl
    ⟨u0, u1, h.1, h.2.1, h.2.2.1, h.2.2.2.1⟩)
    (by decide)

/-- C21 at a concrete input: with a refresh signer that fails, token issuance
for user 7 and the whole callback end with `ErrInternalError`. -/
theorem GenerateTokens_spec_witness :
    (issueTokens Demo.clock Demo.brokenSignerService Demo.alice [] 0).out =
      Outcome.error ErrInternalError ∧
    (Service.Callback Demo.clock Demo.brokenSignerService (Demo.callback "github") 0).out =
      Outcome.error ErrInternalError :=
  ⟨(GenerateTokens_spec Demo.clock Demo.brokenSignerService Demo.alice [] 0).2.2.2.2
    ⟨GoError.errorsNew "signing key missing", rfl⟩, by decide⟩

end appauth

namespace oauth2

/-- C23 at a concrete input: of two addresses flagged primary the first is
reported, not the email of the profile and not the later address. -/
theorem GetUserInfo_primary_email_witness :
    ∃ info, (GithubProvider.GetUserInfo Demo.githubClient (some "gho_token") 0).val = some info ∧
      (GithubProvider.GetUserInfo Demo.githubClient (some "gho_token") 0).err = none ∧
      info.Email = "octo@example.com" :=
  GetUserInfo_primary_email Demo.githubClient (some "gho_token") 0 Demo.profile Demo.emails
    ⟨rfl, rfl, rfl, rfl⟩

/-- C27 at a concrete input: a profile decoded without an identifier is
reported under the external identifier `0`. -/
theorem GetUserInfo_identifier_witness :
    ∃ info, (GithubProvider.GetUserInfo Demo.githubClient (some "gho_token") 0).val = some info ∧
      (GithubProvider.GetUserInfo Demo.githubClient (some "gho_token") 0).err = none ∧
      info.ID = "0" :=
  let ⟨info, h1, h2, _, h4⟩ := (GetUserInfo_identifier Demo.githubClient (some "gho_token") 0
    Demo.profile Demo.emails ⟨rfl, rfl, rfl, rfl⟩).2.1
  ⟨info, h1, h2, h4 rfl⟩

end oauth2

namespace handler

/-- C24 at a concrete input: a token that the refresh signer rejects is
answered with `ErrUnauthorized` after the one decode call. -/
theorem HandleRefreshToken_spec_witness :
    (TokenHandler.HandleRefreshToken Demo.tokenHandler { RefreshToken := "access-jwt" } 0).out
      = Outcome.error ErrUnauthorized ∧
    (TokenHandler.HandleRefreshToken Demo.tokenHandler { RefreshToken := "access-jwt" }
      0).trace = [Event.DecodeToken Signer.refresh "access-jwt"] :=
  ((HandleRefreshToken_spec Demo.tokenHandler { RefreshToken := "access-jwt" } 0).resolve_right
    (fun h => h.elim (fun b => absurd b.1 (by decide)) (fun c => absurd c.1 (by decide)))).2

end handler

namespace user

/-- C25 at a concrete input: every permission passes a check against the
unknown requirement `root`, and a user with the unknown permission `guest`
fails the check against reader. -/
theorem HasPermission_unknown_witness :
    Permission.HasPermission PermissionReader "root" = true ∧
    User.HasPermission { Demo.alice with permission := "guest" } PermissionReader = false :=
  ⟨((HasPermission_unknown PermissionReader "root" Demo.alice).1 (by decide)).2,
   (HasPermission_unknown PermissionReader PermissionReader
     { Demo.alice with permission := "guest" }).2 (by decide) (by decide)⟩

end user

/-! ### Timestamps of the mutating calls -/

namespace user

/-- C20: a successful mutating call leaves `createdAt` as it was and stores in
`updatedAt` the clock reading it takes. `UpdateName`, `UpdateAvatar`,
`UpdatePermission`, `BindGithub`, `BindQQ` and `BindGoogle` read the clock
once, and that reading is the new `updatedAt`; `RecordLogin` reads it twice,
the first reading for `lastLogin` and the second for `updatedAt`. So a call
made while the clock reads `t` (the one reading, or for `RecordLogin` also the
second) leaves `updatedAt` equal to `t`. -/
theorem Mutation_updatedAt {W : Type} (now : Clock W) (m : Mutation) (u : User) (w : W)
    (hOk : (Mutation.apply now m u w).err = none) :
    (Mutation.apply now m u w).val.createdAt = u.createdAt ∧
    ((m ≠ Mutation.RecordLogin ∧
        (Mutation.apply now m u w).val.updatedAt = (now w).1 ∧
        (Mutation.apply now m u w).world = (now w).2) ∨
     (m = Mutation.RecordLogin ∧
        (Mutation.apply now m u w).val.lastLogin = (now w).1 ∧
        (Mutation.apply now m u w).val.updatedAt = (now (now w).2).1 ∧
        (Mutation.apply now m u w).world = (now (now w).2).2)) ∧
    (∀ t : Time, (now w).1 = t → (m = Mutation.RecordLogin → (now (now w).2).1 = t) →
      (Mutation.apply now m u w).val.updatedAt = t) := by
  cases m with
  | UpdateName name =>
    simp only [Mutation.apply, User.UpdateName] at hOk ⊢
    split at hOk
    · simp at hOk
    · rename_i hn
      simp [hn]
  | UpdateAvatar avatar => simp [Mutation.apply, User.UpdateAvatar]
  | UpdatePermission permission =>
    simp only [Mutation.apply, User.UpdatePermission] at hOk ⊢
    split at hOk
    · simp at hOk
    · rename_i hp
      simp [hp]
  | RecordLogin => simp [Mutation.apply, User.RecordLogin]
  | BindGithub id =>
    simp only [Mutation.apply, User.BindGithub] at hOk ⊢
    split at hOk
    · simp at hOk
    · rename_i hn
      simp [hn]
  | BindQQ id =>
    simp only [Mutation.apply, User.BindQQ] at hOk ⊢
    split at hOk
    · simp at hOk
    · rename_i hn
      simp [hn]
  | BindGoogle id =>
    simp only [Mutation.apply, User.BindGoogle] at hOk ⊢
    split at hOk
    · simp at hOk
    · rename_i hn
      simp [hn]

/-- C20 at concrete inputs, on a clock that advances with every reading: a
GitHub binding made at reading 1700000005 and a login recorded at the readings
1700000000 and 1700000001; and a login recorded while the clock stands at
1700000000. -/
theorem Mutation_updatedAt_witness :
    ((Mutation.apply Demo.clock (Mutation.BindGithub "gh-new") Demo.alice 5).val.updatedAt
        = { unix := 1700000005, nsec := 0 } ∧
     (Mutation.apply Demo.clock (Mutation.BindGithub "gh-new") Demo.alice 5).val.createdAt
        = { unix := 1600000000, nsec := 0 }) ∧
    ((Mutation.apply Demo.clock Mutation.RecordLogin Demo.alice 0).val.updatedAt
        = { unix := 1700000001, nsec := 0 } ∧
     (Mutation.apply Demo.clock Mutation.RecordLogin Demo.alice 0).val.createdAt
        = { unix := 1600000000, nsec := 0 }) ∧
    (Mutation.apply Demo.frozenClock Mutation.RecordLogin Demo.alice 0).val.updatedAt
        = { unix := 1700000000, nsec := 0 } :=
  ⟨⟨(Mutation_updatedAt Demo.clock (Mutation.BindGithub "gh-new") Demo.alice 5 rfl).2.2
      { unix := 1700000005, nsec := 0 } rfl (fun h => by cases h),
    (Mutation_updatedAt Demo.clock (Mutation.BindGithub "gh-new") Demo.alice 5 rfl).1⟩,
   ⟨((Mutation_updatedAt Demo.clock Mutation.RecordLogin Demo.alice 0 rfl).2.1.resolve_left
      (fun h => h.1 rfl)).2.2.1,
    (Mutation_updatedAt Demo.clock Mutation.RecordLogin Demo.alice 0 rfl).1⟩,
   (Mutation_updatedAt Demo.frozenClock Mutation.RecordLogin Demo.alice 0 rfl).2.2
      { unix := 1700000000, nsec := 0 } rfl (fun _ => rfl)⟩

end user

/-! ### The first login -/

namespace appauth

/-- When both signer calls succeed, token issuance succeeds: it calls the access
signer, then the refresh signer, once each for the identifier of the user,
answers with their outputs and reads the clock once at the end. -/
theorem issueTokens_success {W : Type} (now : Clock W) (s : Service W) (u : user.User)
    (tr : List Event) (w : W)
    (hA : (s.authService.accessTokenSigner.EncodeToken u.id w).err = none)
    (hR : (s.authService.refreshTokenSigner.EncodeToken u.id
      (s.authService.accessTokenSigner.EncodeToken u.id w).world).err = none) :
    (issueTokens now s u tr w).out = Outcome.ok
      { AccessToken := (s.authService.accessTokenSigner.EncodeToken u.id w).val,
        RefreshToken := (s.authService.refreshTokenSigner.EncodeToken u.id
          (s.authService.accessTokenSigner.EncodeToken u.id w).world).val } ∧
    (issueTokens now s u tr w).trace =
      tr ++ [Event.EncodeToken Signer.access u.id, Event.EncodeToken Signer.refresh u.id] ∧
    (issueTokens now s u tr w).world =
      (now (s.authService.refreshTokenSigner.EncodeToken u.id
        (s.authService.accessTokenSigner.EncodeToken u.id w).world).world).2 := by
  simp [issueTokens, domainauth.Service.GenerateTokens, hA, hR, domainauth.NewToken]

/-- With a valid reported name and a non-empty email, the `NewUser` call inside
`CreateUser` builds the user with the reported name, email and avatar,
permission reader, no identifier and no binding. -/
theorem newUserCall_ok {W : Type} (now : Clock W) (s : Service W)
    (info : domainauth.OAuth2UserInfo) (w : W) (u0 : user.User)
    (hName : user.ValidateUserName info.name = none)
    (hBuilt : (newUserCall now s info w).1 = Except.ok u0) :
    u0.id = 0 ∧ u0.name = info.name ∧ u0.email.value = info.email ∧ u0.avatar = info.avatar ∧
    u0.permission = user.PermissionReader ∧ u0.githubBindID = "" ∧ u0.qqBindID = "" ∧
    u0.googleBindID = "" := by
  have hNameNe : info.name ≠ "" := ValidateUserName_ne_empty _ hName
  have hReader : user.Permission.IsValid user.PermissionReader = true := by decide
  simp only [newUserCall, chooseUserName, hName, user.NewUser, hNameNe, if_false, hReader,
    Bool.not_true, Bool.false_eq_true, Except.ok.injEq] at hBuilt
  subst hBuilt
  exact ⟨rfl, rfl, rfl, rfl, rfl, rfl, rfl, rfl⟩

/-- A successful `CreateUser` call of the new-user branch looked the email up
once and saved the user that `NewUser` built; it returns that user as the save
left it, in the world the save left. -/
theorem createUserCall_ok {W : Type} (now : Clock W) (s : Service W)
    (info : domainauth.OAuth2UserInfo) (w : W) (u0 u : user.User)
    (hBuilt : (newUserCall now s info w).1 = Except.ok u0)
    (hCreate : (createUserCall now s info w).out = Outcome.ok u) :
    (createUserCall now s info w).trace =
      [Event.FindByEmail Via.userService { value := info.email },
       Event.Save Via.userService u0] ∧
    (createUserCall now s info w).world =
      (s.userService.repo.Save u0 (newUserCall now s info w).2).world ∧
    u = (s.userService.repo.Save u0 (newUserCall now s info w).2).val ∧
    (s.userService.repo.Save u0 (newUserCall now s info w).2).err = none := by
  unfold createUserCall at hCreate ⊢
  unfold newUserCall at hBuilt ⊢
  generalize chooseUserName now info w = named at hBuilt hCreate ⊢
  cases hV : user.ValidateUserName named.1 with
  | some err => simp [user.Service.CreateUser, hV] at hCreate
  | none =>
    by_cases hE : info.email = ""
    · simp [user.Service.CreateUser, hV, user.NewEmail, hE] at hCreate
    · cases hF : (s.userService.repo.FindByEmail { value := info.email } named.2).val with
      | some found => simp [user.Service.CreateUser, hV, user.NewEmail, hE, hF] at hCreate
      | none =>
        simp only [user.Service.CreateUser, hV, user.NewEmail, hE, if_false, hF, hBuilt]
          at hCreate ⊢
        split at hCreate
        · simp at hCreate
        · rename_i hSave
          simp only [hSave]
          simp only [Outcome.ok.injEq] at hCreate
          refine ⟨?_, ?_, ?_, ?_⟩
          all_goals first | trivial | rfl | exact hCreate.symm

/-- C11: a first GitHub login. The state matches, both provider calls succeed,
the lookup reports no user, the reported name is a valid user name and the
external identifier is not empty. `u0` is the user that `NewUser` builds
inside `CreateUser`; that `CreateUser` call succeeds and returns `u0` with the
identifier `newID` assigned by its save; the save after the bind statement
succeeds and leaves that identifier; a hook is configured; and the two signer
calls, made for `newID` in the world the hook leaves, succeed. Every one of
these conditions is about the one call the run makes. Then, after the lookup,
the run makes exactly these calls: the lookup and the save of `CreateUser`
(the user `u0`: identifier 0, no binding), the save of the created user `u1`,
one hook call with `newID`, one access and one refresh `EncodeToken` for
`newID`. The created user has the reported name, email and avatar, permission
reader and the GitHub binding equal to the external identifier; the response
carries the tokens the two signers return for `newID` in the world after the
hook; and the run ends in the world after the last clock reading. -/
theorem Callback_first_github_login {W : Type} (now : Clock W) (s : Service W)
    (cmd : CallbackCommand) (w : W) (prov : domainauth.OAuth2Provider W)
    (info : domainauth.OAuth2UserInfo) (u0 : user.User) (newID : Nat)
    (hook : Nat → W → Ret W Unit)
    (h : FindsNone s cmd w prov info)
    (hProv : cmd.Provider = "github")
    (hName : user.ValidateUserName info.name = none)
    (hID : info.id ≠ "")
    (hBuilt : (newUserCall now s info (lookup s cmd w prov info).world).1 = Except.ok u0)
    (hCreate : (createUserCall now s info (lookup s cmd w prov info).world).out =
      Outcome.ok (user.User.SetID u0 newID))
    (hSave : (saveAfterBind now s cmd.Provider info (user.User.SetID u0 newID)
      (createUserCall now s info (lookup s cmd w prov info).world).world).err = none)
    (hKeep : (saveAfterBind now s cmd.Provider info (user.User.SetID u0 newID)
      (createUserCall now s info (lookup s cmd w prov info).world).world).val.id = newID)
    (hHook : s.onUserCreated = some hook)
    (hA : (s.authService.accessTokenSigner.EncodeToken newID
      (worldAfterHook hook (saveAfterBind now s cmd.Provider info (user.User.SetID u0 newID)
        (createUserCall now s info (lookup s cmd w prov info).world).world))).err = none)
    (hR : (s.authService.refreshTokenSigner.EncodeToken newID
      (s.authService.accessTokenSigner.EncodeToken newID
        (worldAfterHook hook (saveAfterBind now s cmd.Provider info
          (user.User.SetID u0 newID)
          (createUserCall now s info (lookup s cmd w prov info).world).world))).world).err
        = none) :
    ∃ u1 : user.User,
      u1 = (bindThirdParty now cmd.Provider (user.User.SetID u0 newID) info.id
        (createUserCall now s info (lookup s cmd w prov info).world).world).1 ∧
      (Service.Callback now s cmd w).trace =
        lookupCalls cmd w prov info ++
          [Event.FindByEmail Via.userService { value := info.email },
           Event.Save Via.userService u0,
           Event.Save Via.appService u1,
           Event.OnUserCreated newID,
           Event.EncodeToken Signer.access newID,
           Event.EncodeToken Signer.refresh newID] ∧
      u0.id = 0 ∧ u0.name = info.name ∧ u0.githubBindID = "" ∧
      u1.id = newID ∧ u1.name = info.name ∧ u1.email.value = info.email ∧
      u1.avatar = info.avatar ∧ u1.permission = user.PermissionReader ∧
      u1.githubBindID = info.id ∧ u1.qqBindID = "" ∧ u1.googleBindID = "" ∧
      (Service.Callback now s cmd w).out = Outcome.ok
        { AccessToken := (s.authService.accessTokenSigner.EncodeToken newID
            (worldAfterHook hook (saveAfterBind now s cmd.Provider info
              (user.User.SetID u0 newID)
              (createUserCall now s info (lookup s cmd w prov info).world).world))).val,
          RefreshToken := (s.authService.refreshTokenSigner.EncodeToken newID
            (s.authService.accessTokenSigner.EncodeToken newID
              (worldAfterHook hook (saveAfterBind now s cmd.Provider info
                (user.User.SetID u0 newID)
                (createUserCall now s info
                  (lookup s cmd w prov info).world).world))).world).val } ∧
      (Service.Callback now s cmd w).world =
        (now (s.authService.refreshTokenSigner.EncodeToken newID
          (s.authService.accessTokenSigner.EncodeToken newID
            (worldAfterHook hook (saveAfterBind now s cmd.Provider info
              (user.User.SetID u0 newID)
              (createUserCall now s info
                (lookup s cmd w prov info).world).world))).world).world).2 := by
  rw [Callback_eq_loginNew now s cmd w prov info h]
  obtain ⟨h0, hn, he, hav, hp, hg, hq, hgo⟩ := newUserCall_ok now s info _ u0 hName hBuilt
  obtain ⟨hTr, _, _, _⟩ := createUserCall_ok now s info _ u0 _ hBuilt hCreate
  generalize (lookup s cmd w prov info).world = w3 at *
  generalize lookupCalls cmd w prov info = tr
  unfold createUserCall at hCreate hSave hKeep hA hR hTr ⊢
  unfold saveAfterBind at hSave hKeep hA hR ⊢
  unfold worldAfterHook at hA hR ⊢
  rw [hKeep] at hA hR
  simp only [hKeep]
  have hBind : (bindThirdParty now cmd.Provider (user.User.SetID u0 newID) info.id
      (user.Service.CreateUser now s.userService (chooseUserName now info w3).1 info.email
        info.avatar user.PermissionReader (chooseUserName now info w3).2).world).1 =
      { user.User.SetID u0 newID with
        githubBindID := info.id,
        updatedAt := (now (user.Service.CreateUser now s.userService
          (chooseUserName now info w3).1 info.email info.avatar user.PermissionReader
          (chooseUserName now info w3).2).world).1 } := by
    simp [bindThirdParty, hProv, domainauth.ProviderGithub, user.User.BindGithub, hID]
  refine ⟨_, rfl, ?_, h0, hn, hg, ?_, ?_, ?_, ?_, ?_, ?_, ?_, ?_, ?_, ?_⟩
  · simp only [loginNew, hCreate, hSave, hHook, hTr, hKeep]
    rw [(issueTokens_success now s _ _ _ (by rw [hKeep]; exact hA)
      (by rw [hKeep]; exact hR)).2.1]
    simp [hKeep]
  · rw [hBind]; rfl
  · rw [hBind]; exact hn
  · rw [hBind]; exact he
  · rw [hBind]; exact hav
  · rw [hBind]; exact hp
  · rw [hBind]
  · rw [hBind]; exact hq
  · rw [hBind]; exact hgo
  · simp only [loginNew, hCreate, hSave, hHook]
    rw [(issueTokens_success now s _ _ _ (by rw [hKeep]; exact hA)
      (by rw [hKeep]; exact hR)).1]
    simp [hKeep]
  · simp only [loginNew, hCreate, hSave, hHook]
    rw [(issueTokens_success now s _ _ _ (by rw [hKeep]; exact hA)
      (by rw [hKeep]; exact hR)).2.2]
    simp [hKeep]

/-- C11 at a concrete input: the first GitHub login of `bob` over an in-memory
repository whose table already holds `alice`. The new row gets the identifier
2, the hook provisions directory 2, and the table ends with both users, `bob`
bound to the external identifier 99. -/
theorem Callback_first_github_login_witness :
    (∃ u1 : user.User,
      (Service.Callback Demo.storeClock Demo.storeService (Demo.callback "github")
        Demo.store0).trace =
        lookupCalls (Demo.callback "github") Demo.store0 Demo.storeProvider
            (Demo.bobInfo "github" "99") ++
          [Event.FindByEmail Via.userService { value := "b@example.com" },
           Event.Save Via.userService
             { id := 0, name := "bob", email := { value := "b@example.com" },
               avatar := "https://img.example/bob", permission := user.PermissionReader,
               lastLogin := { unix := 1700000000, nsec := 0 },
               createdAt := { unix := 1700000000, nsec := 0 },
               updatedAt := { unix := 1700000000, nsec := 0 },
               githubBindID := "", qqBindID := "", googleBindID := "" },
           Event.Save Via.appService u1,
           Event.OnUserCreated 2,
           Event.EncodeToken Signer.access 2,
           Event.EncodeToken Signer.refresh 2] ∧
      u1.id = 2 ∧ u1.name = "bob" ∧ u1.githubBindID = "99" ∧
      (Service.Callback Demo.storeClock Demo.storeService (Demo.callback "github")
        Demo.store0).out =
        Outcome.ok { AccessToken := "access-jwt", RefreshToken := "refresh-jwt" }) ∧
    (Service.Callback Demo.storeClock Demo.storeService (Demo.callback "github")
      Demo.store0).world.dirs = [7, 2] ∧
    (Service.Callback Demo.storeClock Demo.storeService (Demo.callback "github")
      Demo.store0).world.rows.map (fun r => (r.id, r.name, r.githubBindID)) =
      [(7, "alice", "gh-old"), (2, "bob", "99")] :=
  And.intro
    (let ⟨u1, _, h⟩ := Callback_first_github_login Demo.storeClock Demo.storeService
      (Demo.callback "github") Demo.store0 Demo.storeProvider (Demo.bobInfo "github" "99")
      { id := 0, name := "bob", email := { value := "b@example.com" },
        avatar := "https://img.example/bob", permission := user.PermissionReader,
        lastLogin := { unix := 1700000000, nsec := 0 },
        createdAt := { unix := 1700000000, nsec := 0 },
        updatedAt := { unix := 1700000000, nsec := 0 },
        githubBindID := "", qqBindID := "", googleBindID := "" }
      2 Demo.storeHook
      ⟨⟨⟨rfl, rfl, rfl, rfl, rfl⟩, by decide⟩, rfl, by decide⟩ rfl (by decide) (by decide)
      rfl rfl rfl rfl rfl rfl rfl
    ⟨u1, h.1, h.2.2.2.2.1, h.2.2.2.2.2.1, h.2.2.2.2.2.2.2.2.2.1,
      h.2.2.2.2.2.2.2.2.2.2.2.2.1⟩)
    (And.intro (by decide) (by decide))

end appauth

end GoTmpl
